import Mathlib

/-!
# Verification of `rename_by_content.py`

A shallow embedding, in Lean 4, of the date/title inference engine of the
repository `sanette/rename_by_content` (file `rename_by_content.py`), together
with theorems settling the specification claims.

Modelling conventions:

* Python text is modelled as `List Char`.  The program's inputs of interest
  (text lines, tag values) are treated at the character level; the regex
  character classes `\d`, `\w`, `\s` are modelled by their ASCII meaning
  (`[0-9]`, `[A-Za-z0-9_]`, and the Python whitespace characters), which is
  exact on the ASCII inputs considered throughout.
* `datetime.datetime` objects are modelled by `PyDate` (year, month, day);
  constructing one (`datetime.datetime(y, m, d)`) is the fallible operation
  `mkDatetime`, which raises `PyError.valueError` exactly when Python would
  (year outside 1..9999, month outside 1..12, day outside the month's length).
  Fallible Python code is modelled in `Except PyError`.
* The external collaborators `dateparser.parse` and
  `dateparser.search.search_dates` (third-party library, not part of this
  repository) are taken as function parameters (`dpParse`, `dpSearch`); a
  `none` result models both "library returned None" and "library raised",
  which the repository's own `try/except` wrappers treat identically.
  `unidecode` is likewise a parameter.
* Python `str.strip`, `str.replace`, `re.sub` with the concrete patterns of
  the source, and the specific `re.search`/`re.findall` patterns are
  implemented character by character, following Python's leftmost-match,
  greedy/lazy and backtracking semantics for those concrete patterns.
-/

/-- Python `\d` on ASCII text (`[0-9]`, by character code). -/
def pyDigit (c : Char) : Bool := 48 ≤ c.toNat && c.toNat ≤ 57

/-- Python `\w` (word character) on ASCII text: `[A-Za-z0-9_]` (by character
code: `A`-`Z` is 65..90, `a`-`z` is 97..122, `0`-`9` is 48..57, `_` is 95). -/
def pyWord (c : Char) : Bool :=
  (65 ≤ c.toNat && c.toNat ≤ 90) || (97 ≤ c.toNat && c.toNat ≤ 122) ||
    (48 ≤ c.toNat && c.toNat ≤ 57) || c == '_'

/-- Python `\s` / `str.strip` whitespace on ASCII text. -/
def pySpace (c : Char) : Bool :=
  c == ' ' || c == '\t' || c == '\n' || c == '\r' || c == '\x0b' || c == '\x0c'

/-- Numeric value of a decimal digit character. -/
def digitVal (c : Char) : Nat := c.toNat - 48

/-- Numeric value of a digit string (as Python `int` on an all-digit string). -/
def digitsVal (l : List Char) : Nat := l.foldl (fun a c => a * 10 + digitVal c) 0

/-- Python `str.strip()`: remove leading and trailing whitespace. -/
def pyStrip (l : List Char) : List Char :=
  ((l.dropWhile pySpace).reverse.dropWhile pySpace).reverse

/-- A Python `datetime.datetime` (time-of-day ignored: the program never uses it). -/
structure PyDate where
  year : Nat
  month : Nat
  day : Nat
deriving DecidableEq, Repr

/-- The one Python exception class the embedded code can raise across the
inference engine's boundary. -/
inductive PyError where
  | valueError
deriving DecidableEq, Repr

/-- Gregorian leap-year test (as Python's `calendar`/`datetime`). -/
def isLeap (y : Nat) : Bool := (y % 4 == 0 && y % 100 != 0) || y % 400 == 0

/-- Days in a month, as validated by `datetime.datetime`. -/
def daysInMonth (y m : Nat) : Nat :=
  if m = 2 then (if isLeap y then 29 else 28)
  else if m = 4 ∨ m = 6 ∨ m = 9 ∨ m = 11 then 30
  else 31

/-- Python `datetime.datetime(y, m, d)`: raises `ValueError` unless the arguments
form a real calendar date with `1 ≤ y ≤ 9999`. -/
def mkDatetime (y m d : Nat) : Except PyError PyDate :=
  if 1 ≤ y ∧ y ≤ 9999 ∧ 1 ≤ m ∧ m ≤ 12 ∧ 1 ≤ d ∧ d ≤ daysInMonth y m then
    .ok ⟨y, m, d⟩
  else .error .valueError

/-- The `MIN_YEAR` global of the source. -/
def MIN_YEAR : Nat := 1900

/-- Source `compare_dates(d1, d2)`:
`d1.year < d2.year or (d1.year == d2.year and d1.month <= d2.month)`. -/
def compare_dates (d1 d2 : PyDate) : Bool :=
  decide (d1.year < d2.year) || (decide (d1.year = d2.year) && decide (d1.month ≤ d2.month))

/-- The loop body of `max_dates`: replace the accumulator whenever
`compare_dates(m, d)` holds. -/
def foldMaxDate (m : PyDate) (l : List PyDate) : PyDate :=
  l.foldl (fun m d => if compare_dates m d then d else m) m

/-- Source `max_dates(dates)`: fold starting from the sentinel
`datetime.datetime(1,1,1)`; `None` when the sentinel survives. -/
def max_dates (dates : List PyDate) : Option PyDate :=
  let m := foldMaxDate ⟨1, 1, 1⟩ dates
  if m.year = 1 then none else some m

/-- The `(year, month)`-lexicographic `≤` (day ignored), the order decided by
`compare_dates`. -/
def ymLe (a b : PyDate) : Prop :=
  a.year < b.year ∨ (a.year = b.year ∧ a.month ≤ b.month)

/-- Strict `(year, month)`-lexicographic `<` (day ignored). -/
def ymLt (a b : PyDate) : Prop :=
  a.year < b.year ∨ (a.year = b.year ∧ a.month < b.month)

theorem compare_dates_iff (a b : PyDate) : compare_dates a b = true ↔ ymLe a b := by
  simp [compare_dates, ymLe]

theorem ymLe_total (a b : PyDate) : ymLe a b ∨ ymLt b a := by
  unfold ymLe ymLt; omega

theorem ymLt_of_not_le (a b : PyDate) (h : ¬ ymLe a b) : ymLt b a := by
  unfold ymLe at h; unfold ymLt; omega

theorem ymLe_trans {a b c : PyDate} (h1 : ymLe a b) (h2 : ymLe b c) : ymLe a c := by
  unfold ymLe at *; omega

/-! ## The filename sanitizer (`get_valid_filename`) -/

/-- The character class `[A-Za-z0-9._-]` kept by `get_valid_filename`
(by character code). -/
def validChar (c : Char) : Bool :=
  (65 ≤ c.toNat && c.toNat ≤ 90) || (97 ≤ c.toNat && c.toNat ≤ 122) ||
    (48 ≤ c.toNat && c.toNat ≤ 57) || c == '.' || c == '_' || c == '-'

/-- Python `s.replace(' ', '_')`. -/
def replaceSpaceUnderscore (l : List Char) : List Char :=
  l.map (fun c => if c = ' ' then '_' else c)

/-- Python `s.replace('\000', '')`. -/
def removeNul (l : List Char) : List Char := l.filter (fun c => c ≠ '\x00')

/-- Python `re.sub(r'[^A-Za-z0-9._-]', '_', s)` (a per-character substitution). -/
def subInvalid (l : List Char) : List Char :=
  l.map (fun c => if validChar c then c else '_')

/-- Scanner state for `re.sub(r'_00+', '', s)`:
`norm` = no partial match pending; `pendU` = a `'_'` is pending;
`pendU0` = `"_0"` is pending; `run` = inside a matched `_00+` zero run. -/
inductive U00State where
  | norm
  | pendU
  | pendU0
  | run
deriving DecidableEq, Repr

/-- One-pass scanner for `re.sub(r'_00+', '', s)`: Python scans left to right,
at each position matching `'_'` followed by a maximal run of at least two
zeros (greedy `0+`), deleting each non-overlapping match and resuming after
it. -/
def remU00Go : U00State → List Char → List Char
  | .norm, [] => []
  | .pendU, [] => ['_']
  | .pendU0, [] => ['_', '0']
  | .run, [] => []
  | .norm, c :: r => if c = '_' then remU00Go .pendU r else c :: remU00Go .norm r
  | .pendU, c :: r =>
      if c = '0' then remU00Go .pendU0 r
      else if c = '_' then '_' :: remU00Go .pendU r
      else '_' :: c :: remU00Go .norm r
  | .pendU0, c :: r =>
      if c = '0' then remU00Go .run r
      else if c = '_' then '_' :: '0' :: remU00Go .pendU r
      else '_' :: '0' :: c :: remU00Go .norm r
  | .run, c :: r =>
      if c = '0' then remU00Go .run r
      else if c = '_' then remU00Go .pendU r
      else c :: remU00Go .norm r

/-- Python `re.sub(r'_00+', '', s)`. -/
def remU00 (l : List Char) : List Char := remU00Go .norm l

/-- Source `get_valid_filename(s, convert_accent)`.  `uni` is the external
`unidecode` transliteration, injected as a collaborator. -/
def get_valid_filename (uni : List Char → List Char) (convert_accent : Bool)
    (s : List Char) : List Char :=
  let s1 := replaceSpaceUnderscore (pyStrip s)
  let s2 := removeNul (pyStrip s1)
  let s3 := if convert_accent then uni s2 else s2
  remU00 (subInvalid s3)

/-! ### Idempotence machinery for the sanitizer -/

/-- The pending (not yet emitted) characters of a scanner state. -/
def u00Pending : U00State → List Char
  | .norm => []
  | .pendU => ['_']
  | .pendU0 => ['_', '0']
  | .run => []

/-- Does `_00` occur (as a contiguous substring) in the list? -/
def hasU00 : List Char → Bool
  | [] => false
  | c :: r => (decide (c = '_') && decide (r.take 2 = ['0', '0'])) || hasU00 r

theorem hasU00_cons (c : Char) (r : List Char) :
    hasU00 (c :: r) = ((decide (c = '_') && decide (r.take 2 = ['0', '0'])) || hasU00 r) :=
  rfl

theorem hasU00_tail {c : Char} {r : List Char} (h : hasU00 (c :: r) = false) :
    hasU00 r = false := by
  rw [hasU00_cons] at h
  exact (Bool.or_eq_false_iff.mp h).2

theorem take2_eq_head {l : List Char} (h : l.take 2 = ['0', '0']) :
    l.head? = some '0' := by
  cases l with
  | nil => simp at h
  | cons a t => simp_all

theorem remU00Go_head_ne_zero (s : List Char) :
    ∀ st, st ≠ U00State.norm → (remU00Go st s).head? ≠ some '0' := by
  induction s with
  | nil => intro st _; cases st <;> simp [remU00Go]
  | cons c r ih =>
    intro st hst
    cases st with
    | norm => exact absurd rfl hst
    | pendU =>
      by_cases h0 : c = '0'
      · subst h0; simpa [remU00Go] using ih .pendU0 (by simp)
      · by_cases hu : c = '_'
        · subst hu; simp [remU00Go]
        · simp [remU00Go, h0, hu]
    | pendU0 =>
      by_cases h0 : c = '0'
      · subst h0; simpa [remU00Go] using ih .run (by simp)
      · by_cases hu : c = '_'
        · subst hu; simp [remU00Go]
        · simp [remU00Go, h0, hu]
    | run =>
      by_cases h0 : c = '0'
      · subst h0; simpa [remU00Go] using ih .run (by simp)
      · by_cases hu : c = '_'
        · subst hu; simpa [remU00Go] using ih .pendU (by simp)
        · simp [remU00Go, h0, hu]

theorem remU00Go_no_pat (s : List Char) :
    ∀ st, hasU00 (remU00Go st s) = false := by
  induction s with
  | nil => intro st; cases st <;> simp [remU00Go] <;> decide
  | cons c r ih =>
    intro st
    cases st with
    | norm =>
      by_cases hu : c = '_'
      · subst hu; simpa [remU00Go] using ih .pendU
      · simp [remU00Go, hu, hasU00_cons, ih .norm]
    | pendU =>
      by_cases h0 : c = '0'
      · subst h0; simpa [remU00Go] using ih .pendU0
      · by_cases hu : c = '_'
        · subst hu
          have hh := remU00Go_head_ne_zero r .pendU (by simp)
          have ht2 : decide ((remU00Go .pendU r).take 2 = ['0', '0']) = false := by
            by_cases h : (remU00Go .pendU r).take 2 = ['0', '0']
            · exact absurd (take2_eq_head h) hh
            · simp [h]
          simp [remU00Go, hasU00_cons, ht2, ih .pendU]
        · simp [remU00Go, h0, hu, hasU00_cons, ih .norm]
    | pendU0 =>
      by_cases h0 : c = '0'
      · subst h0; simpa [remU00Go] using ih .run
      · by_cases hu : c = '_'
        · subst hu
          have hh := remU00Go_head_ne_zero r .pendU (by simp)
          have ht1 : ¬ (remU00Go .pendU r).take 1 = ['0'] := by
            intro h
            apply hh
            cases hr : remU00Go .pendU r with
            | nil => rw [hr] at h; simp at h
            | cons a t =>
              rw [hr] at h
              simp at h
              simp [hr, h]
          simp [remU00Go, hasU00_cons, ht1, ih .pendU]
        · simp [remU00Go, h0, hu, hasU00_cons, ih .norm]
    | run =>
      by_cases h0 : c = '0'
      · subst h0; simpa [remU00Go] using ih .run
      · by_cases hu : c = '_'
        · subst hu; simpa [remU00Go] using ih .pendU
        · simp [remU00Go, h0, hu, hasU00_cons, ih .norm]

theorem remU00Go_id_of_no_pat (s : List Char) :
    ∀ st, st ≠ U00State.run → hasU00 (u00Pending st ++ s) = false →
      remU00Go st s = u00Pending st ++ s := by
  induction s with
  | nil => intro st _ _; cases st <;> simp [remU00Go, u00Pending]
  | cons c r ih =>
    intro st hst hpat
    cases st with
    | norm =>
      simp only [u00Pending, List.nil_append] at hpat
      by_cases hu : c = '_'
      · subst hu
        simpa [remU00Go, u00Pending] using ih .pendU (by simp) (by simpa [u00Pending] using hpat)
      · simpa [remU00Go, hu, u00Pending] using
          ih .norm (by simp) (by simpa [u00Pending] using hasU00_tail hpat)
    | pendU =>
      simp only [u00Pending, List.cons_append, List.nil_append] at hpat
      by_cases h0 : c = '0'
      · subst h0
        simpa [remU00Go, u00Pending] using ih .pendU0 (by simp) (by simpa [u00Pending] using hpat)
      · by_cases hu : c = '_'
        · subst hu
          simpa [remU00Go, u00Pending] using
            ih .pendU (by simp) (by simpa [u00Pending] using hasU00_tail hpat)
        · simpa [remU00Go, h0, hu, u00Pending] using
          ih .norm (by simp) (by simpa [u00Pending] using hasU00_tail (hasU00_tail hpat))
    | pendU0 =>
      simp only [u00Pending, List.cons_append, List.nil_append] at hpat
      by_cases h0 : c = '0'
      · exfalso
        subst h0
        rw [hasU00_cons] at hpat
        simp at hpat
      · by_cases hu : c = '_'
        · subst hu
          simpa [remU00Go, u00Pending] using
            ih .pendU (by simp) (by simpa [u00Pending] using hasU00_tail (hasU00_tail hpat))
        · simpa [remU00Go, h0, hu, u00Pending] using
          ih .norm (by simp)
            (by simpa [u00Pending] using hasU00_tail (hasU00_tail (hasU00_tail hpat)))
    | run => exact absurd rfl hst

/-- Python `re.sub(r'_00+', '', ·)` is idempotent: its output contains no `_00`
occurrence, on which the scan is the identity. -/
theorem remU00_idem (s : List Char) : remU00 (remU00 s) = remU00 s := by
  have h1 := remU00Go_no_pat s U00State.norm
  have := remU00Go_id_of_no_pat (remU00Go .norm s) U00State.norm (by simp)
    (by simpa [u00Pending] using h1)
  simpa [remU00, u00Pending] using this

theorem remU00Go_mem {p : Char → Bool} (hp : p '_' = true) (hp0 : p '0' = true) :
    ∀ (s : List Char) (st : U00State), (∀ c ∈ s, p c = true) →
      ∀ c ∈ remU00Go st s, p c = true := by
  intro s
  induction s with
  | nil =>
    intro st _ c hc
    cases st <;> simp [remU00Go] at hc
    · simp [hc, hp]
    · rcases hc with hc | hc <;> simp [hc, hp, hp0]
  | cons a t ih =>
    intro st h c hc
    have ha : p a = true := h a (by simp)
    have ht : ∀ c ∈ t, p c = true := fun c hc => h c (by simp [hc])
    cases st with
    | norm =>
      by_cases hu : a = '_'
      · subst hu; rw [show remU00Go .norm ('_' :: t) = remU00Go .pendU t from rfl] at hc
        exact ih .pendU ht c hc
      · simp only [remU00Go, if_neg hu] at hc
        rcases List.mem_cons.mp hc with hc | hc
        · simpa [hc] using ha
        · exact ih .norm ht c hc
    | pendU =>
      by_cases h0 : a = '0'
      · subst h0; rw [show remU00Go .pendU ('0' :: t) = remU00Go .pendU0 t from rfl] at hc
        exact ih .pendU0 ht c hc
      · by_cases hu : a = '_'
        · subst hu
          rw [show remU00Go .pendU ('_' :: t) = '_' :: remU00Go .pendU t from rfl] at hc
          rcases List.mem_cons.mp hc with hc | hc
          · simpa [hc] using hp
          · exact ih .pendU ht c hc
        · simp only [remU00Go, if_neg h0, if_neg hu] at hc
          rcases List.mem_cons.mp hc with hc | hc
          · simpa [hc] using hp
          · rcases List.mem_cons.mp hc with hc | hc
            · simpa [hc] using ha
            · exact ih .norm ht c hc
    | pendU0 =>
      by_cases h0 : a = '0'
      · subst h0; rw [show remU00Go .pendU0 ('0' :: t) = remU00Go .run t from rfl] at hc
        exact ih .run ht c hc
      · by_cases hu : a = '_'
        · subst hu
          rw [show remU00Go .pendU0 ('_' :: t) = '_' :: '0' :: remU00Go .pendU t from rfl] at hc
          rcases List.mem_cons.mp hc with hc | hc
          · simpa [hc] using hp
          · rcases List.mem_cons.mp hc with hc | hc
            · simpa [hc] using hp0
            · exact ih .pendU ht c hc
        · simp only [remU00Go, if_neg h0, if_neg hu] at hc
          rcases List.mem_cons.mp hc with hc | hc
          · simpa [hc] using hp
          · rcases List.mem_cons.mp hc with hc | hc
            · simpa [hc] using hp0
            · rcases List.mem_cons.mp hc with hc | hc
              · simpa [hc] using ha
              · exact ih .norm ht c hc
    | run =>
      by_cases h0 : a = '0'
      · subst h0; rw [show remU00Go .run ('0' :: t) = remU00Go .run t from rfl] at hc
        exact ih .run ht c hc
      · by_cases hu : a = '_'
        · subst hu; rw [show remU00Go .run ('_' :: t) = remU00Go .pendU t from rfl] at hc
          exact ih .pendU ht c hc
        · simp only [remU00Go, if_neg h0, if_neg hu] at hc
          rcases List.mem_cons.mp hc with hc | hc
          · simpa [hc] using ha
          · exact ih .norm ht c hc

theorem subInvalid_chars (s : List Char) : ∀ c ∈ subInvalid s, validChar c = true := by
  intro c hc
  rcases List.mem_map.mp hc with ⟨a, _, ha⟩
  by_cases h : validChar a
  · rw [if_pos h] at ha; rw [← ha]; exact h
  · rw [if_neg h] at ha; rw [← ha]; decide

theorem get_valid_filename_chars (uni : List Char → List Char) (ca : Bool) (s : List Char) :
    ∀ c ∈ get_valid_filename uni ca s, validChar c = true := by
  unfold get_valid_filename remU00
  exact remU00Go_mem (by decide) (by decide) _ _ (subInvalid_chars _)

theorem validChar_not_space {c : Char} (h : validChar c = true) : pySpace c = false := by
  rcases Bool.eq_false_or_eq_true (pySpace c) with ht | hf
  · exfalso
    have hd : c = ' ' ∨ c = '\t' ∨ c = '\n' ∨ c = '\r' ∨ c = '\x0b' ∨ c = '\x0c' := by
      simpa [pySpace, or_assoc] using ht
    rcases hd with h1 | h1 | h1 | h1 | h1 | h1 <;> (subst h1; exact absurd h (by decide))
  · exact hf

theorem validChar_not_blank {c : Char} (h : validChar c = true) : c ≠ ' ' := by
  intro he; subst he; exact absurd h (by decide)

theorem validChar_not_nul {c : Char} (h : validChar c = true) : c ≠ '\x00' := by
  intro he; subst he; exact absurd h (by decide)

theorem dropWhile_id_of_all {p : Char → Bool} {s : List Char}
    (h : ∀ c ∈ s, p c = false) : s.dropWhile p = s := by
  cases s with
  | nil => rfl
  | cons a t => rw [List.dropWhile_cons, if_neg (by simp [h a (by simp)])]

theorem pyStrip_id {s : List Char} (h : ∀ c ∈ s, pySpace c = false) : pyStrip s = s := by
  unfold pyStrip
  rw [dropWhile_id_of_all h,
    dropWhile_id_of_all (fun c hc => h c (List.mem_reverse.mp hc)),
    List.reverse_reverse]

theorem map_id_of_mem {f : Char → Char} :
    ∀ {s : List Char}, (∀ c ∈ s, f c = c) → s.map f = s := by
  intro s h
  induction s with
  | nil => rfl
  | cons a t ih =>
    simp only [List.map_cons]
    rw [h a (by simp), ih (fun c hc => h c (by simp [hc]))]

/-- The specification claim C9: `get_valid_filename` is idempotent, for any
accent-transliteration collaborator `uni` that is the identity on strings of
characters already in the kept class `[A-Za-z0-9._-]` (as `unidecode` is on
ASCII). -/
theorem get_valid_filename_idem (uni : List Char → List Char) (ca : Bool)
    (huni : ∀ t, (∀ c ∈ t, validChar c = true) → uni t = t) (s : List Char) :
    get_valid_filename uni ca (get_valid_filename uni ca s) =
      get_valid_filename uni ca s := by
  have hv := get_valid_filename_chars uni ca s
  set out := get_valid_filename uni ca s with hout
  have h1 : pyStrip out = out := by
    apply pyStrip_id
    intro c hc
    exact validChar_not_space (hv c hc)
  have h2 : replaceSpaceUnderscore out = out := by
    unfold replaceSpaceUnderscore
    apply map_id_of_mem
    intro c hc
    exact if_neg (validChar_not_blank (hv c hc))
  have h3 : removeNul out = out := by
    unfold removeNul
    apply List.filter_eq_self.mpr
    intro c hc
    simp [validChar_not_nul (hv c hc)]
  have h4 : (if ca then uni out else out) = out := by
    cases ca
    · simp
    · simp [huni out hv]
  have h5 : subInvalid out = out := by
    unfold subInvalid
    apply map_id_of_mem
    intro c hc
    exact if_pos (hv c hc)
  calc get_valid_filename uni ca out
      = remU00 (subInvalid (if ca then uni (removeNul (pyStrip
          (replaceSpaceUnderscore (pyStrip out)))) else removeNul (pyStrip
          (replaceSpaceUnderscore (pyStrip out))))) := rfl
    _ = remU00 out := by rw [h1, h2, h1, h3, h4, h5]
    _ = out := by
        rw [hout]
        unfold get_valid_filename
        exact remU00_idem _

/-- Witness for C9 at a concrete input (with `uni = id`, i.e. `unidecode`
on an ASCII string): the hypothesis holds and idempotence follows. -/
theorem get_valid_filename_idem_witness :
    (∀ t : List Char, (∀ c ∈ t, validChar c = true) → id t = t) ∧
      get_valid_filename id true (get_valid_filename id true
        (" ça c'est_000sûr! .doc").toList) =
        get_valid_filename id true (" ça c'est_000sûr! .doc").toList :=
  ⟨fun _ _ => rfl,
   get_valid_filename_idem id true (fun _ _ => rfl) (" ça c'est_000sûr! .doc").toList⟩

/-! ## The Date Aggregator reduction (`max_scores`, `max_dates`) -/

/-- The loop body of `max_scores`: `if score > mscore: res = [d]; mscore = score
elif score == mscore: res.append(d)`. -/
def max_scores_step (acc : List PyDate × Nat) (p : PyDate × Nat) : List PyDate × Nat :=
  if p.2 > acc.2 then ([p.1], p.2)
  else if p.2 = acc.2 then (acc.1 ++ [p.1], acc.2)
  else acc

/-- Source `max_scores(datelist)`: the list of dates having maximal score. -/
def max_scores (l : List (PyDate × Nat)) : List PyDate :=
  (l.foldl max_scores_step ([], 0)).1

/-- Running maximum of the scores of `l`, starting from `a`. -/
def maxScoreFrom (a : Nat) (l : List (PyDate × Nat)) : Nat :=
  l.foldl (fun acc p => max acc p.2) a

/-- The maximum score present in a candidate list (0 for the empty list). -/
def maxScoreOf (l : List (PyDate × Nat)) : Nat := maxScoreFrom 0 l

theorem maxScoreFrom_cons (a : Nat) (p : PyDate × Nat) (t : List (PyDate × Nat)) :
    maxScoreFrom a (p :: t) = maxScoreFrom (max a p.2) t := rfl

theorem le_maxScoreFrom (l : List (PyDate × Nat)) : ∀ a, a ≤ maxScoreFrom a l := by
  induction l with
  | nil => intro a; exact le_refl a
  | cons p t ih =>
    intro a
    rw [maxScoreFrom_cons]
    exact le_trans (le_max_left a p.2) (ih (max a p.2))

theorem mem_le_maxScoreFrom (l : List (PyDate × Nat)) :
    ∀ a p, p ∈ l → p.2 ≤ maxScoreFrom a l := by
  induction l with
  | nil => intro a p hp; simp at hp
  | cons q t ih =>
    intro a p hp
    rw [maxScoreFrom_cons]
    rcases List.mem_cons.mp hp with h | h
    · subst h
      exact le_trans (le_max_right a p.2) (le_maxScoreFrom t (max a p.2))
    · exact ih (max a q.2) p h

theorem maxScoreFrom_cases (l : List (PyDate × Nat)) :
    ∀ a, maxScoreFrom a l = a ∨ ∃ p ∈ l, maxScoreFrom a l = p.2 := by
  induction l with
  | nil => intro a; exact Or.inl rfl
  | cons q t ih =>
    intro a
    rw [maxScoreFrom_cons]
    rcases ih (max a q.2) with h | ⟨p, hp, hq⟩
    · rcases Nat.le_total a q.2 with hle | hle
      · right
        exact ⟨q, by simp, by rw [h]; omega⟩
      · left
        rw [h]; omega
    · right
      exact ⟨p, by simp [hp], hq⟩

theorem filter_cons_pos {f : PyDate × Nat → Bool} {p : PyDate × Nat}
    {t : List (PyDate × Nat)} (h : f p = true) :
    (p :: t).filter f = p :: t.filter f := by
  simp [List.filter_cons, h]

theorem filter_cons_neg {f : PyDate × Nat → Bool} {p : PyDate × Nat}
    {t : List (PyDate × Nat)} (h : f p = false) :
    (p :: t).filter f = t.filter f := by
  simp [List.filter_cons, h]

theorem max_scores_aux :
    ∀ (l : List (PyDate × Nat)) (res : List PyDate) (ms : Nat),
      l.foldl max_scores_step (res, ms) =
        ((if ms = maxScoreFrom ms l then res else []) ++
          (l.filter (fun p => p.2 == maxScoreFrom ms l)).map Prod.fst,
          maxScoreFrom ms l) := by
  intro l
  induction l with
  | nil => intro res ms; simp [maxScoreFrom]
  | cons p t ih =>
    intro res ms
    rw [List.foldl_cons, maxScoreFrom_cons]
    by_cases h1 : ms < p.2
    · have hstep : max_scores_step (res, ms) p = ([p.1], p.2) := by
        simp [max_scores_step, h1]
      have hmax : max ms p.2 = p.2 := by omega
      rw [hstep, hmax, ih]
      have hms : ¬ ms = maxScoreFrom p.2 t := by
        have := le_maxScoreFrom t p.2
        omega
      rw [if_neg hms]
      by_cases h2 : p.2 = maxScoreFrom p.2 t
      · rw [if_pos h2, filter_cons_pos (by simpa using h2)]
        simp
      · rw [if_neg h2, filter_cons_neg (by simpa using h2)]
    · by_cases h2 : p.2 = ms
      · have hstep : max_scores_step (res, ms) p = (res ++ [p.1], ms) := by
          simp [max_scores_step, h2, h1]
        have hmax : max ms p.2 = ms := by omega
        rw [hstep, hmax, ih]
        by_cases h3 : ms = maxScoreFrom ms t
        · rw [if_pos h3, if_pos h3, filter_cons_pos (by simp [h2, ← h3]), List.map_cons]
          simp
        · rw [if_neg h3, if_neg h3, filter_cons_neg (by simp [h2]; omega)]
      · have h4 : p.2 < ms := by omega
        have hstep : max_scores_step (res, ms) p = (res, ms) := by
          unfold max_scores_step
          rw [if_neg (by simpa using h1), if_neg h2]
        have hmax : max ms p.2 = ms := by omega
        rw [hstep, hmax, ih]
        have hne : (p.2 == maxScoreFrom ms t) = false := by
          have := le_maxScoreFrom t ms
          simp only [beq_eq_false_iff_ne, ne_eq]
          omega
        rw [filter_cons_neg hne]

/-- Source `max_scores` returns exactly the dates whose score is the maximal score,
in scan order. -/
theorem max_scores_eq (l : List (PyDate × Nat)) :
    max_scores l = (l.filter (fun p => p.2 == maxScoreOf l)).map Prod.fst := by
  unfold max_scores maxScoreOf
  rw [max_scores_aux l [] 0]
  simp

theorem ymLe_refl (a : PyDate) : ymLe a a := Or.inr ⟨rfl, le_refl _⟩

theorem foldMaxDate_cons (m d : PyDate) (t : List PyDate) :
    foldMaxDate m (d :: t) = foldMaxDate (if compare_dates m d then d else m) t := rfl

theorem foldMaxDate_spec :
    ∀ (l : List PyDate) (m : PyDate),
      (∀ e ∈ l, ymLe e (foldMaxDate m l)) ∧ ymLe m (foldMaxDate m l) ∧
        ((foldMaxDate m l = m ∧ ∀ e ∈ l, ¬ ymLe m e) ∨
          ∃ pre post, l = pre ++ foldMaxDate m l :: post ∧
            ∀ e ∈ post, ¬ ymLe (foldMaxDate m l) e) := by
  intro l
  induction l with
  | nil =>
    intro m
    refine ⟨by simp, ymLe_refl m, Or.inl ⟨rfl, by simp⟩⟩
  | cons d t ih =>
    intro m
    rw [foldMaxDate_cons]
    by_cases hc : compare_dates m d = true
    · rw [if_pos hc]
      obtain ⟨h1, h2, h3⟩ := ih d
      have hmd : ymLe m d := (compare_dates_iff m d).mp hc
      refine ⟨?_, ymLe_trans hmd h2, ?_⟩
      · intro e he
        rcases List.mem_cons.mp he with he | he
        · subst he; exact h2
        · exact h1 e he
      · rcases h3 with ⟨heq, hall⟩ | ⟨pre, post, hsplit, hpost⟩
        · right
          exact ⟨[], t, by simp [heq], by rw [heq]; exact hall⟩
        · right
          refine ⟨d :: pre, post, ?_, hpost⟩
          rw [List.cons_append]
          exact congrArg (List.cons d) hsplit
    · rw [if_neg (by simpa using hc)]
      obtain ⟨h1, h2, h3⟩ := ih m
      have hnmd : ¬ ymLe m d := fun h => hc ((compare_dates_iff m d).mpr h)
      refine ⟨?_, h2, ?_⟩
      · intro e he
        rcases List.mem_cons.mp he with he | he
        · subst he
          rcases ymLe_total e m with h | h
          · exact ymLe_trans h h2
          · exact absurd (Or.elim h (fun h => Or.inl h) (fun h => Or.inr ⟨h.1, le_of_lt h.2⟩))
              hnmd
        · exact h1 e he
      · rcases h3 with ⟨heq, hall⟩ | ⟨pre, post, hsplit, hpost⟩
        · left
          refine ⟨heq, ?_⟩
          intro e he
          rcases List.mem_cons.mp he with he | he
          · subst he; exact hnmd
          · exact hall e he
        · right
          refine ⟨d :: pre, post, ?_, hpost⟩
          rw [List.cons_append]
          exact congrArg (List.cons d) hsplit

theorem maxScore_attained (l : List (PyDate × Nat)) (hne : l ≠ []) :
    ∃ p ∈ l, p.2 = maxScoreOf l := by
  rcases maxScoreFrom_cases l 0 with h | ⟨p, hp, hq⟩
  · cases l with
    | nil => exact absurd rfl hne
    | cons q t =>
      refine ⟨q, by simp, ?_⟩
      have hle := mem_le_maxScoreFrom (q :: t) 0 q (by simp)
      unfold maxScoreOf
      omega
  · exact ⟨p, hp, hq.symm⟩

theorem mem_max_scores (l : List (PyDate × Nat)) {e : PyDate}
    (he : e ∈ max_scores l) : (e, maxScoreOf l) ∈ l := by
  rw [max_scores_eq] at he
  rcases List.mem_map.mp he with ⟨p, hp, hpe⟩
  have := List.mem_filter.mp hp
  have h2 : p.2 = maxScoreOf l := by simpa using this.2
  have : p = (e, maxScoreOf l) := by
    rcases p with ⟨pd, psc⟩
    simp at hpe h2
    simp [hpe, h2]
  rw [← this]
  exact (List.mem_filter.mp hp).1

theorem max_scores_mem_of (l : List (PyDate × Nat)) {p : PyDate × Nat}
    (hp : p ∈ l) (hsc : p.2 = maxScoreOf l) : p.1 ∈ max_scores l := by
  rw [max_scores_eq]
  exact List.mem_map.mpr ⟨p, List.mem_filter.mpr ⟨hp, by simpa using hsc⟩, rfl⟩

theorem max_scores_ne_nil (l : List (PyDate × Nat)) (hne : l ≠ []) :
    max_scores l ≠ [] := by
  obtain ⟨p, hp, hsc⟩ := maxScore_attained l hne
  intro h
  have hm := max_scores_mem_of l hp hsc
  rw [h] at hm
  simp at hm

/-- Core property of the reduction `max_dates (max_scores l)`: it returns a
date of maximal score that is `(year, month)`-maximal among the max-score
dates, and is the last such date in scan order. -/
theorem max_dates_max_scores_spec (l : List (PyDate × Nat)) (hne : l ≠ [])
    (hyr : ∀ p ∈ l, MIN_YEAR ≤ p.1.year) :
    ∃ d pre post, max_dates (max_scores l) = some d ∧
      max_scores l = pre ++ d :: post ∧ (∀ e ∈ max_scores l, ymLe e d) ∧
      (∀ e ∈ post, ¬ ymLe d e) := by
  have hmsne := max_scores_ne_nil l hne
  have hyms : ∀ e ∈ max_scores l, MIN_YEAR ≤ e.year := by
    intro e he
    exact hyr (e, maxScoreOf l) (mem_max_scores l he)
  obtain ⟨hball, _, hloc⟩ := foldMaxDate_spec (max_scores l) ⟨1, 1, 1⟩
  set R := foldMaxDate ⟨1, 1, 1⟩ (max_scores l) with hR
  rcases hloc with ⟨_, hall⟩ | ⟨pre, post, hsplit, hpost⟩
  · exfalso
    cases hms : max_scores l with
    | nil => exact hmsne hms
    | cons e t =>
      have he : e ∈ max_scores l := by rw [hms]; simp
      have h1900 := hyms e he
      exact hall e he (Or.inl (by simp [MIN_YEAR] at h1900 ⊢; omega))
  · have hmem : R ∈ max_scores l := by
      rw [hsplit]; simp
    have hy := hyms _ hmem
    refine ⟨R, pre, post, ?_, hsplit, hball, hpost⟩
    unfold max_dates
    rw [← hR, if_neg (by simp [MIN_YEAR] at hy; omega)]

/-- Claim C5 (confirmed): for every non-empty candidate list with nonzero
scores (and, per the data-model invariant, years at least `MIN_YEAR`), the
reduction `max_dates (max_scores ·)` returns a date whose score equals the
maximum score in the list and whose `(year, month)` is `≥` that of every
candidate sharing the maximum score (day ignored). -/
theorem aggregate_max_score_latest (l : List (PyDate × Nat)) (hne : l ≠ [])
    (hsc : ∀ p ∈ l, p.2 ≠ 0) (hyr : ∀ p ∈ l, MIN_YEAR ≤ p.1.year) :
    ∃ d, max_dates (max_scores l) = some d ∧ (d, maxScoreOf l) ∈ l ∧
      ∀ p ∈ l, p.2 = maxScoreOf l → ymLe p.1 d := by
  obtain ⟨d, pre, post, hmd, hsplit, hball, hpost⟩ := max_dates_max_scores_spec l hne hyr
  refine ⟨d, hmd, mem_max_scores l (by rw [hsplit]; simp), ?_⟩
  intro p hp hpsc
  exact hball p.1 (max_scores_mem_of l hp hpsc)

/-- Witness for C5 at a concrete candidate list. -/
theorem aggregate_max_score_latest_witness :
    ([((⟨2018, 3, 5⟩ : PyDate), 10), (⟨2019, 1, 2⟩, 5)] ≠
        ([] : List (PyDate × Nat))) ∧
      (∀ p ∈ [((⟨2018, 3, 5⟩ : PyDate), 10), (⟨2019, 1, 2⟩, 5)], p.2 ≠ 0) ∧
      (∀ p ∈ [((⟨2018, 3, 5⟩ : PyDate), 10), (⟨2019, 1, 2⟩, 5)],
        MIN_YEAR ≤ p.1.year) ∧
      ∃ d, max_dates (max_scores [((⟨2018, 3, 5⟩ : PyDate), 10), (⟨2019, 1, 2⟩, 5)]) =
          some d ∧
        (d, maxScoreOf [((⟨2018, 3, 5⟩ : PyDate), 10), (⟨2019, 1, 2⟩, 5)]) ∈
          [((⟨2018, 3, 5⟩ : PyDate), 10), (⟨2019, 1, 2⟩, 5)] ∧
        ∀ p ∈ [((⟨2018, 3, 5⟩ : PyDate), 10), (⟨2019, 1, 2⟩, 5)],
          p.2 = maxScoreOf [((⟨2018, 3, 5⟩ : PyDate), 10), (⟨2019, 1, 2⟩, 5)] →
            ymLe p.1 d :=
  ⟨by decide, by decide, by decide,
    aggregate_max_score_latest _ (by decide) (by decide) (by decide)⟩

/-- Counterexample to claim C4 as stated: two candidates share the maximum
score 10 and the same (chronologically latest) `(year, month) = (2020, 5)`;
the reduction returns the second (last in scan order), not the first. -/
theorem aggregate_first_tie_cex :
    max_dates (max_scores [((⟨2020, 5, 1⟩ : PyDate), 10), (⟨2020, 5, 9⟩, 10)]) =
        some ⟨2020, 5, 9⟩ ∧
      (⟨2020, 5, 9⟩ : PyDate) ≠ ⟨2020, 5, 1⟩ := by
  exact ⟨by decide, by decide⟩

/-- Claim C4 as amended: among the candidates sharing the maximum score and
the latest `(year, month)`, the reduction returns the **last** such candidate
in scan order (the fold replaces the accumulator on `(year, month)` ties,
because `compare_dates` uses `<=` on the month). -/
theorem aggregate_last_tie (l : List (PyDate × Nat)) (hne : l ≠ [])
    (hyr : ∀ p ∈ l, MIN_YEAR ≤ p.1.year) :
    ∃ d pre post, max_dates (max_scores l) = some d ∧
      max_scores l = pre ++ d :: post ∧ (∀ e ∈ max_scores l, ymLe e d) ∧
      ∀ e ∈ post, ymLt e d := by
  obtain ⟨d, pre, post, hmd, hsplit, hball, hpost⟩ := max_dates_max_scores_spec l hne hyr
  exact ⟨d, pre, post, hmd, hsplit, hball, fun e he => ymLt_of_not_le d e (hpost e he)⟩

/-- Witness for the amended C4 at a concrete candidate list with a
`(year, month)` tie. -/
theorem aggregate_last_tie_witness :
    ([((⟨2020, 5, 1⟩ : PyDate), 10), (⟨2020, 5, 9⟩, 10)] ≠
        ([] : List (PyDate × Nat))) ∧
      (∀ p ∈ [((⟨2020, 5, 1⟩ : PyDate), 10), (⟨2020, 5, 9⟩, 10)],
        MIN_YEAR ≤ p.1.year) ∧
      ∃ d pre post,
        max_dates (max_scores [((⟨2020, 5, 1⟩ : PyDate), 10), (⟨2020, 5, 9⟩, 10)]) =
            some d ∧
          max_scores [((⟨2020, 5, 1⟩ : PyDate), 10), (⟨2020, 5, 9⟩, 10)] =
            pre ++ d :: post ∧
          (∀ e ∈ max_scores [((⟨2020, 5, 1⟩ : PyDate), 10), (⟨2020, 5, 9⟩, 10)],
            ymLe e d) ∧
          ∀ e ∈ post, ymLt e d :=
  ⟨by decide, by decide, aggregate_last_tie _ (by decide) (by decide)⟩

/-! ## The Title Extractor (`title_from_txt`) -/

/-- Python `re.sub(r' (\w) ', r'\1', line)` ("S a l u t " → "Salut "):
left-to-right non-overlapping replacement; after a match the scan resumes
after the matched text (the second space is consumed). -/
def subIso : List Char → List Char
  | ' ' :: c :: ' ' :: rest =>
      if pyWord c then c :: subIso rest
      else ' ' :: subIso (c :: ' ' :: rest)
  | c :: rest => c :: subIso rest
  | [] => []

/-- Python `line.replace('…', '')`. -/
def removeEllipsis (l : List Char) : List Char := l.filter (fun c => c ≠ '…')

/-- Python `re.sub(r'--+', '-', line)`: each maximal run of at least two
dashes becomes a single dash; equivalently, drop every dash that directly
follows a dash.  `prev` is the previous character. -/
def collapseDashesGo (prev : Option Char) : List Char → List Char
  | [] => []
  | c :: r =>
      if c = '-' ∧ prev = some '-' then collapseDashesGo (some '-') r
      else c :: collapseDashesGo (some c) r

/-- Python `re.sub(r'--+', '-', line)`. -/
def collapseDashes (l : List Char) : List Char := collapseDashesGo none l

/-- Python `re.sub(r'\.\.+', '.', line)` (same shape as `collapseDashes`). -/
def collapseDotsGo (prev : Option Char) : List Char → List Char
  | [] => []
  | c :: r =>
      if c = '.' ∧ prev = some '.' then collapseDotsGo (some '.') r
      else c :: collapseDotsGo (some c) r

/-- Python `re.sub(r'\.\.+', '.', line)`. -/
def collapseDots (l : List Char) : List Char := collapseDotsGo none l

/-- Scanner state for `re.sub(r'\s\s+', ' ', line)`: `norm` = previous char
not whitespace; `pend w` = a single whitespace `w` seen, not yet emitted
(it is kept verbatim if isolated); `run` = inside a matched whitespace run
already replaced by a single `' '`. -/
inductive WsSt where
  | norm
  | pend (w : Char)
  | run
deriving DecidableEq, Repr

/-- One-pass scanner for `re.sub(r'\s\s+', ' ', line)`: each maximal run of
two or more whitespace characters becomes one `' '`; an isolated whitespace
character stays as it is. -/
def collapseWsGo : WsSt → List Char → List Char
  | .norm, [] => []
  | .pend w, [] => [w]
  | .run, [] => []
  | .norm, c :: r => if pySpace c then collapseWsGo (.pend c) r else c :: collapseWsGo .norm r
  | .pend w, c :: r =>
      if pySpace c then ' ' :: collapseWsGo .run r
      else w :: c :: collapseWsGo .norm r
  | .run, c :: r => if pySpace c then collapseWsGo .run r else c :: collapseWsGo .norm r

/-- Python `re.sub(r'\s\s+', ' ', line)`. -/
def collapseWs (l : List Char) : List Char := collapseWsGo .norm l

/-- The per-line cleaning of `title_from_txt` pass 1 (source lines 216-222),
in source order: strip, collapse isolated letters, drop the ellipsis glyph,
collapse dash runs, dot runs, whitespace runs. -/
def clean_line (l : List Char) : List Char :=
  collapseWs (collapseDots (collapseDashes (removeEllipsis (subIso (pyStrip l)))))

/-- The count `nascii`: `len(re.sub(r'[^\w]', '', line))`, the number of word characters. -/
def countWord (l : List Char) : Nat := (l.filter pyWord).length

/-- Pass 1 of `title_from_txt` (source lines 210-235): accumulate cleaned
lines; return a single line with more than 40 word characters immediately,
or the accumulation once it exceeds 50 word characters; the `if i > 12:
break` check sits at the bottom of the loop body, after the line has been
processed. -/
def title_pass1 (i asciiCount : Nat) (accum : List Char) :
    List (List Char) → Option (List Char)
  | [] => none
  | raw :: rest =>
    let j := i + 1
    let line := clean_line raw
    let nascii := countWord line
    if nascii > 40 then some line
    else
      let asciiCount2 := asciiCount + nascii
      let accum2 := accum ++ (if j = 1 then line else ' ' :: line)
      if asciiCount2 > 50 then some accum2
      else if j > 12 then none
      else title_pass1 j asciiCount2 accum2 rest

/-- A `\b` to the right of a position: the next character is a non-word
character, or the string ends. -/
def nextBoundaryB : List Char → Bool
  | [] => true
  | c :: _ => !pyWord c

/-- Is `(19|20)\d{2}` at the head of the list, with a non-word character (or
the end of the string) right after (`\b`)?  Returns the year value. -/
def yearTokAt : List Char → Option Nat
  | c1 :: c2 :: c3 :: c4 :: rest =>
      if (((c1 == '1' && c2 == '9') || (c1 == '2' && c2 == '0')) &&
          pyDigit c3 && pyDigit c4 && nextBoundaryB rest) then
        some (digitsVal [c1, c2, c3, c4])
      else none
  | _ => none

/-- Python `re.search(r'\b(19|20)\d{2}\b', ·)`: leftmost year token with word
boundaries; `prevW` says whether the previous character is a word character. -/
def findYearTokGo (prevW : Bool) : List Char → Option Nat
  | [] => none
  | c :: rest =>
      match (if prevW then none else yearTokAt (c :: rest)) with
      | some y => some y
      | none => findYearTokGo (pyWord c) rest

/-- Python `re.search(r'\b(19|20)\d{2}\b', line)`, returning the matched year. -/
def findYearTok (l : List Char) : Option Nat := findYearTokGo false l

/-- Pass 2 of `title_from_txt` (source lines 239-249): the first stripped
line containing a year token `19xx`/`20xx` whose value is at least
`MIN_YEAR` (the source deliberately imposes no upper bound: "even a future
date can be common in a title"). -/
def title_pass2 : List (List Char) → Option (List Char)
  | [] => none
  | raw :: rest =>
    match findYearTok (pyStrip raw) with
    | some y => if y ≥ MIN_YEAR then some (pyStrip raw) else title_pass2 rest
    | none => title_pass2 rest

/-- Source `title_from_txt`, on the file's lines: pass 1, then pass 2 only
if pass 1 returned nothing. -/
def title_from_txt (lines : List (List Char)) : Option (List Char) :=
  match title_pass1 0 0 [] lines with
  | some t => some t
  | none => title_pass2 lines

/-- Python `re.findall(r'\b((19|20)\d{2})\b', ·)`: all non-overlapping year tokens,
left to right (as used by `find_year`).  After a match the scan resumes just
after the token (whose last character is a word character). -/
def yearToksGo (prevW : Bool) : List Char → List Nat
  | c1 :: c2 :: c3 :: c4 :: rest =>
      if (!prevW && ((c1 == '1' && c2 == '9') || (c1 == '2' && c2 == '0')) &&
          pyDigit c3 && pyDigit c4 && nextBoundaryB rest) then
        digitsVal [c1, c2, c3, c4] :: yearToksGo true rest
      else yearToksGo (pyWord c1) (c2 :: c3 :: c4 :: rest)
  | _ => []

/-- Python `re.findall(r'\b((19|20)\d{2})\b', string)`, as year values. -/
def yearToks (l : List Char) : List Nat := yearToksGo false l

/-! ### Claim C6: pass 1 of the Title Extractor and its line cap -/

/-- Claim C6 (code bug): pass 1 of `title_from_txt` does read a 13th line —
the `if i > 12: break` check sits after the line has been processed, while
the claim (and the source's own comment, "we start by reading the first
N=12 lines") says at most 12.  Two files agreeing on their first 12 lines
produce different titles, each equal to its 13th line. -/
theorem title_pass1_reads_thirteenth_line :
    title_from_txt (List.replicate 12 ['a'] ++ [List.replicate 41 'b']) =
        some (List.replicate 41 'b') ∧
      title_from_txt (List.replicate 12 ['a'] ++ [List.replicate 41 'c']) =
        some (List.replicate 41 'c') ∧
      (List.replicate 12 ['a'] ++ [List.replicate 41 'b']).take 12 =
        (List.replicate 12 ['a'] ++ [List.replicate 41 'c']).take 12 ∧
      List.replicate 41 'b' ≠ List.replicate (α := Char) 41 'c' :=
  ⟨by decide, by decide, by decide, by decide⟩

/-! ### Claim C7: pass 2 of the Title Extractor and the year range -/

theorem digitVal_le_9 {c : Char} (h : pyDigit c = true) : digitVal c ≤ 9 := by
  simp only [pyDigit, Bool.and_eq_true, decide_eq_true_eq] at h
  unfold digitVal
  omega

theorem yearTokAt_bound {l : List Char} {y : Nat} (h : yearTokAt l = some y) :
    1900 ≤ y ∧ y ≤ 2099 := by
  match l with
  | [] => simp [yearTokAt] at h
  | [c1] => simp [yearTokAt] at h
  | [c1, c2] => simp [yearTokAt] at h
  | [c1, c2, c3] => simp [yearTokAt] at h
  | c1 :: c2 :: c3 :: c4 :: rest =>
    rw [show yearTokAt (c1 :: c2 :: c3 :: c4 :: rest) =
      (if (((c1 == '1' && c2 == '9') || (c1 == '2' && c2 == '0')) &&
          pyDigit c3 && pyDigit c4 && nextBoundaryB rest) then
        some (digitsVal [c1, c2, c3, c4])
      else none) from rfl] at h
    split at h
    · rename_i hc
      have hy : y = ((digitVal c1 * 10 + digitVal c2) * 10 + digitVal c3) * 10 + digitVal c4 := by
        have := Option.some.inj h
        rw [← this]
        simp [digitsVal]
      simp only [Bool.and_eq_true, Bool.or_eq_true, beq_iff_eq] at hc
      obtain ⟨⟨⟨h12, h3⟩, h4⟩, _⟩ := hc
      have hd3 := digitVal_le_9 h3
      have hd4 := digitVal_le_9 h4
      rcases h12 with ⟨hc1, hc2⟩ | ⟨hc1, hc2⟩ <;>
        · subst hc1; subst hc2
          rw [hy]
          first
          | (rw [show digitVal '1' = 1 from rfl, show digitVal '9' = 9 from rfl]; omega)
          | (rw [show digitVal '2' = 2 from rfl, show digitVal '0' = 0 from rfl]; omega)
    · exact absurd h (by simp)

theorem findYearTokGo_bound :
    ∀ (l : List Char) (pw : Bool) (y : Nat),
      findYearTokGo pw l = some y → 1900 ≤ y ∧ y ≤ 2099 := by
  intro l
  induction l with
  | nil => intro pw y h; simp [findYearTokGo] at h
  | cons c r ih =>
    intro pw y h
    rw [findYearTokGo] at h
    cases hm : (if pw then none else yearTokAt (c :: r)) with
    | none =>
      rw [hm] at h
      exact ih (pyWord c) y h
    | some y0 =>
      rw [hm] at h
      have hy : y0 = y := by
        simpa using h
      subst hy
      cases pw with
      | true => simp at hm
      | false =>
        rw [if_neg (by simp)] at hm
        exact yearTokAt_bound hm

/-- Claim C7 as amended: a line returned by pass 2 of the Title Extractor
contains a 4-digit year token of the form `19xx`/`20xx` — value necessarily
in `[1900, 2099]` — and the `y >= MIN_YEAR` test is the only range test:
the reference processing year imposes **no** upper bound (the source
comments "we don't impose y <= MAKE_DATE.year because even a future date
can be common in a title"). -/
theorem title_pass2_year_range :
    ∀ (lines : List (List Char)) (l : List Char),
      title_pass2 lines = some l →
        ∃ y, findYearTok l = some y ∧ MIN_YEAR ≤ y ∧ y ≤ 2099 := by
  intro lines
  induction lines with
  | nil => intro l h; simp [title_pass2] at h
  | cons raw rest ih =>
    intro l h
    rw [title_pass2] at h
    cases hm : findYearTok (pyStrip raw) with
    | none =>
      rw [hm] at h
      exact ih l h
    | some y =>
      rw [hm] at h
      replace h : (if y ≥ MIN_YEAR then some (pyStrip raw) else title_pass2 rest) =
          some l := h
      by_cases hy : y ≥ MIN_YEAR
      · rw [if_pos hy] at h
        have hl : pyStrip raw = l := by simpa using h
        obtain ⟨_, hub⟩ := findYearTokGo_bound (pyStrip raw) false y hm
        exact ⟨y, by rw [← hl]; exact hm, hy, hub⟩
      · rw [if_neg hy] at h
        exact ih l h

/-- Witness for the amended C7 at a concrete file. -/
theorem title_pass2_year_range_witness :
    title_pass2 [("annual report 1998").toList] = some (("annual report 1998").toList) ∧
      ∃ y, findYearTok (("annual report 1998").toList) = some y ∧
        MIN_YEAR ≤ y ∧ y ≤ 2099 :=
  ⟨by decide, title_pass2_year_range [("annual report 1998").toList] _ (by decide)⟩

/-- Counterexample to claim C7 as stated: a file whose only 4-digit year
token is 2099 — beyond any plausible reference processing year (the source's
default reference date is the run date; 2099 > 2026) — is nevertheless
returned by pass 2 as the title. -/
theorem title_pass2_future_year_cex :
    title_from_txt [("hello 2099 world").toList] =
        some (("hello 2099 world").toList) ∧
      yearToks (("hello 2099 world").toList) = [2099] ∧ 2026 < 2099 :=
  ⟨by decide, by decide, by decide⟩

/-! ## The Date Pattern Matcher (`date_from_string`) -/

/-- ASCII lower-casing, for the case-insensitive (`re.I`) matches. -/
def asciiLower (c : Char) : Char :=
  if 65 ≤ c.toNat ∧ c.toNat ≤ 90 then Char.ofNat (c.toNat + 32) else c

/-- Match a literal pattern (given lower-case) case-insensitively at the head;
returns (consumed original characters, rest). -/
def matchLitCI : List Char → List Char → Option (List Char × List Char)
  | [], s => some ([], s)
  | _ :: _, [] => none
  | p :: ps, c :: cs =>
      if asciiLower c = p then
        match matchLitCI ps cs with
        | some (con, rest) => some (c :: con, rest)
        | none => none
      else none

/-- The separator class `[/\-:\.]` of the numeric-date pattern. -/
def isSep (c : Char) : Bool := c == '/' || c == '-' || c == ':' || c == '.'

/-- Exactly `n` leading digit characters (the character after them may be
anything, including another digit — the caller's continuation then fails,
mirroring the regex backtracking over `\d{1,n}`). -/
def takeDigitsN (n : Nat) (s : List Char) : Option (Nat × List Char) :=
  if (s.take n).length = n ∧ (s.take n).all pyDigit = true then
    some (digitsVal (s.take n), s.drop n)
  else none

/-- Scan for the `\b((19|20)\d{2})\b` token that ends the lazy group
`\d+.+?\b((19|20)\d{2})\b`: the first position (in `.+?` lazy order) where
the token matches with both boundaries; returns the consumed characters up
to and including the token.  `prevW` tells whether the character before the
current position is a word character (initially true: the previous character
is the last digit of `\d+`, which also makes the mandatory one-character
minimum of `.+?` automatic, since a year token cannot start right after a
digit).  A line never contains a newline, so `.` matches every character. -/
def grpYearScan (prevW : Bool) : List Char → Option (List Char)
  | [] => none
  | c :: rest =>
      match (if prevW then none else yearTokAt (c :: rest)) with
      | some _ => some ((c :: rest).take 4)
      | none =>
          match grpYearScan (pyWord c) rest with
          | some tail => some (c :: tail)
          | none => none

/-- The group `(?P<date>\d+.+?\b((19|20)\d{2})\b)` at the current position:
greedy digits (a shorter `\d+` cannot extend the match, since every
backtracked position would put the year token right after a digit and fail
its leading `\b`), then the lazy scan for the year token. -/
def dateGroupAt (s : List Char) : Option (List Char) :=
  match s.takeWhile pyDigit with
  | [] => none
  | d :: ds =>
      match grpYearScan true (s.drop (d :: ds).length) with
      | some tail => some ((d :: ds) ++ tail)
      | none => none

/-- Pattern 1 after its `(fait|,)` head: `\s+le\s+(?P<date>...)` (`re.I`). -/
def p1AfterHead (r1 : List Char) : Option (List Char) :=
  match r1.takeWhile pySpace with
  | [] => none
  | _ :: _ =>
      match matchLitCI ("le").toList (r1.dropWhile pySpace) with
      | none => none
      | some (_, r2) =>
          match r2.takeWhile pySpace with
          | [] => none
          | _ :: _ => dateGroupAt (r2.dropWhile pySpace)

/-- Pattern 1 at the current position:
`(fait|,)\s+le\s+(?P<date>\d+.+?\b((19|20)\d{2})\b)` (`re.I`), e.g.
"Rennes, le 3 janvier 2018".  Returns the date group. -/
def p1At (s : List Char) : Option (List Char) :=
  match matchLitCI ("fait").toList s with
  | some (_, r1) => p1AfterHead r1
  | none =>
      match s with
      | ',' :: r1 => p1AfterHead r1
      | _ => none

/-- Leftmost search for pattern 1 (source line 343). -/
def p1Search : List Char → Option (List Char)
  | [] => none
  | c :: rest =>
      match p1At (c :: rest) with
      | some g => some g
      | none => p1Search rest

/-- Patterns 2 and 3 share the head `\bdate\s*:\s*`; this returns the rest
after the greedy `\s*` when it matches at the current position (`prevW` is
the word-ness of the previous character, deciding the leading `\b`). -/
def dateLabelAt (prevW : Bool) (s : List Char) : Option (List Char) :=
  if prevW then none
  else
    match matchLitCI ("date").toList s with
    | none => none
    | some (_, r1) =>
        match r1.dropWhile pySpace with
        | ':' :: r2 => some (r2.dropWhile pySpace)
        | _ => none

/-- Pattern 2 at the current position: `\bdate\s*:\s*(\d+.+?\b((19|20)\d{2})\b)`
(`re.I`, source line 350).  Returns group 1. -/
def p2At (prevW : Bool) (s : List Char) : Option (List Char) :=
  match dateLabelAt prevW s with
  | some r => dateGroupAt r
  | none => none

/-- Leftmost search for pattern 2. -/
def p2Search (prevW : Bool) : List Char → Option (List Char)
  | [] => none
  | c :: rest =>
      match p2At prevW (c :: rest) with
      | some g => some g
      | none => p2Search (pyWord c) rest

/-- Leftmost search for pattern 3, `(\bdate\s*:\s*)` (`re.I`, source line
357); returns `line[s.end(1):]`, the text after the matched label. -/
def p3Search (prevW : Bool) : List Char → Option (List Char)
  | [] => none
  | c :: rest =>
      match dateLabelAt prevW (c :: rest) with
      | some r => some r
      | none => p3Search (pyWord c) rest

/-- The year group of the numeric-date pattern,
`(?P<year>(\d{2}\b|\b((19|20)\d{2})\b))`, tried at the current position; the
preceding character is a separator or a space (never a word character), so
the leading `\b` of the second alternative always holds.  The first
alternative (`\d{2}\b`) is tried first, as in the regex. -/
def p4Year (s : List Char) : Option Nat :=
  match takeDigitsN 2 s with
  | some (y2, r2) =>
      if nextBoundaryB r2 then some y2
      else
        match yearTokAt s with
        | some y4 => some y4
        | none => none
  | none => none

/-- The tail `\s*(?P=sep)\s*(?P<year>...)` of the numeric-date pattern after
a month candidate of `n` digits. -/
def p4Month (sep : Char) (day : Nat) (n : Nat) (r3 : List Char) : Option (Nat × Nat × Nat) :=
  match takeDigitsN n r3 with
  | none => none
  | some (mo, r4) =>
      match r4.dropWhile pySpace with
      | c :: r5 =>
          if c = sep then
            match p4Year (r5.dropWhile pySpace) with
            | some y => some (day, mo, y)
            | none => none
          else none
      | [] => none

/-- After the day and its separator: `\s*(?P<month>\d{1,2})...`, month greedy
(2 digits, then 1). -/
def p4AfterSep (sep : Char) (day : Nat) (r2 : List Char) : Option (Nat × Nat × Nat) :=
  p4Month sep day 2 (r2.dropWhile pySpace) <|> p4Month sep day 1 (r2.dropWhile pySpace)

/-- A day candidate of `n` digits, then `\s*(?P<sep>[/\-:\.])` and the rest. -/
def p4Day (n : Nat) (s : List Char) : Option (Nat × Nat × Nat) :=
  match takeDigitsN n s with
  | none => none
  | some (day, r1) =>
      match r1.dropWhile pySpace with
      | c :: r2 => if isSep c then p4AfterSep c day r2 else none
      | [] => none

/-- Pattern 4 at the current position (source line 364):
`\b(?P<day>\d{1,4})\s*(?P<sep>[/\-:\.])\s*(?P<month>\d{1,2})\s*(?P=sep)\s*(?P<year>(\d{2}\b|\b((19|20)\d{2})\b))`,
day greedy with backtracking (4, 3, 2, 1 digits).
Returns `(day, month, year)` as parsed integers. -/
def p4At (s : List Char) : Option (Nat × Nat × Nat) :=
  p4Day 4 s <|> p4Day 3 s <|> p4Day 2 s <|> p4Day 1 s

/-- Leftmost search for pattern 4; `prevW` decides the leading `\b`. -/
def p4Search (prevW : Bool) : List Char → Option (Nat × Nat × Nat)
  | [] => none
  | c :: rest =>
      match (if prevW then none else p4At (c :: rest)) with
      | some r => some r
      | none => p4Search (pyWord c) rest

/-- One character position of a month-name pattern: a list of admissible
characters (the accent alternations `(?:é|e)` etc. of the source). -/
def litAlts (s : String) : List (List Char) := s.toList.map (fun c => [c])

/-- The French month names of `MONTHS_FR` (the `LANG = ['fr']` global keeps
`RE_MONTH` French-only), with their accent alternations, in source order. -/
def monthsFR : List (List (List Char)) :=
  [ litAlts "janvier",
    [['f'], ['é', 'e']] ++ litAlts "vrier",
    litAlts "mars",
    litAlts "avril",
    litAlts "mai",
    litAlts "juin",
    litAlts "juillet",
    litAlts "ao" ++ [['û', 'u']] ++ litAlts "t",
    litAlts "septembre",
    litAlts "octobre",
    litAlts "novembre",
    [['d'], ['é', 'e']] ++ litAlts "cembre" ]

/-- Match one month-name pattern (a list of per-position alternatives)
case-insensitively at the head; returns (consumed, rest). -/
def matchAlts : List (List Char) → List Char → Option (List Char × List Char)
  | [], s => some ([], s)
  | _ :: _, [] => none
  | alts :: ps, c :: cs =>
      if alts.contains (asciiLower c) then
        match matchAlts ps cs with
        | some (con, rest) => some (c :: con, rest)
        | none => none
      else none

/-- Try the month names in the order of `RE_MONTH`. -/
def matchMonth : List (List (List Char)) → List Char → Option (List Char × List Char)
  | [], _ => none
  | m :: ms, s =>
      match matchAlts m s with
      | some r => some r
      | none => matchMonth ms s

/-- The year of pattern 5, `(\d{2}\b|\b((19|20)\d{2})\b)`, returning the
matched text; the preceding character is a space, so the leading `\b` of
the second alternative holds. -/
def p5Year (s : List Char) : Option (List Char) :=
  match takeDigitsN 2 s with
  | some (_, r2) =>
      if nextBoundaryB r2 then some (s.take 2)
      else
        match yearTokAt s with
        | some _ => some (s.take 4)
        | none => none
  | none => none

/-- Pattern 5 at the current position (source lines 380-381):
`(\d*)\s*(janvier|…|décembre)\s+(\d{2}\b|\b((19|20)\d{2})\b)` (`re.I`), e.g.
"VIE UNIVERSITAIRE MERCREDI 18 FEVRIER 1998".  The leading `\d*` is the full
digit run (a shorter greedy split leaves a digit before the month name and
fails).  Returns (group 1 empty?, the whole matched text for
`dateparser_parse`). -/
def p5At (s : List Char) : Option (Bool × List Char) :=
  match matchMonth monthsFR ((s.drop (s.takeWhile pyDigit).length).dropWhile pySpace) with
  | none => none
  | some (mon, r3) =>
      match r3.takeWhile pySpace with
      | [] => none
      | _ :: _ =>
          match p5Year (r3.dropWhile pySpace) with
          | some ytext =>
              some ((s.takeWhile pyDigit).isEmpty,
                (s.takeWhile pyDigit) ++
                  ((s.drop (s.takeWhile pyDigit).length).takeWhile pySpace) ++
                  mon ++ (r3.takeWhile pySpace) ++ ytext)
          | none => none

/-- Leftmost search for pattern 5. -/
def p5Search : List Char → Option (Bool × List Char)
  | [] => none
  | c :: rest =>
      match p5At (c :: rest) with
      | some r => some r
      | none => p5Search rest

/-- The class `[_\-\ ]` before the compact date of pattern 6. -/
def p6LeadSep (c : Char) : Bool := c == '_' || c == '-' || c == ' '

/-- The class `[_\-\ \.]` after the compact date of pattern 6. -/
def p6TrailSep (c : Char) : Bool := c == '_' || c == '-' || c == ' ' || c == '.'

/-- Pattern 6 at the current position (source line 394):
`[_\-\ ](?P<year>(19|20)\d{2})(?P<month>\d{2})(?P<day>\d{2})[_\-\ \.]`, e.g.
"Screenshot_20230504_164636.png".  Returns `(year, month, day)`. -/
def p6At : List Char → Option (Nat × Nat × Nat)
  | s0 :: c1 :: c2 :: c3 :: c4 :: m1 :: m2 :: d1 :: d2 :: t :: _ =>
      if p6LeadSep s0 && ((c1 == '1' && c2 == '9') || (c1 == '2' && c2 == '0')) &&
          pyDigit c3 && pyDigit c4 && pyDigit m1 && pyDigit m2 &&
          pyDigit d1 && pyDigit d2 && p6TrailSep t then
        some (digitsVal [c1, c2, c3, c4], digitsVal [m1, m2], digitsVal [d1, d2])
      else none
  | _ => none

/-- Leftmost search for pattern 6. -/
def p6Search : List Char → Option (Nat × Nat × Nat)
  | [] => none
  | c :: rest =>
      match p6At (c :: rest) with
      | some r => some r
      | none => p6Search rest

/-- Source `find_year(string)` (lines 727-741): all year tokens, filtered to
`[MIN_YEAR, MAX_DATE.year]`; the maximum (Python takes `max` of the token
strings, which on equal-length digit strings is the numeric maximum) as a
`datetime(year, 1, 1)` — always constructible, since `1900 ≤ year ≤ 2099`. -/
def find_year (maxD : PyDate) (s : List Char) : Option PyDate :=
  match (yearToks s).filter (fun y => decide (y ≤ maxD.year) && decide (MIN_YEAR ≤ y)) with
  | [] => none
  | y :: ys => some ⟨(y :: ys).foldl max 0, 1, 1⟩

/-- The type of the raw `dateparser.parse` collaborator (`None` also stands
for a raised exception, which the wrapper's `try/except` turns into `None`). -/
abbrev DpParse := List Char → Option PyDate

/-- The type of the raw `dateparser.search.search_dates` collaborator:
`none` for `None` or a raised exception; otherwise the (substring, date)
pairs. -/
abbrev DpSearch := List Char → Option (List (List Char × PyDate))

/-- Source `dateparser_parse(string)` (lines 265-275): the library result,
kept only when `compare_dates(d, MAX_DATE)` (a past date). -/
def dateparser_parse (dpParse : DpParse) (maxD : PyDate) (s : List Char) : Option PyDate :=
  match dpParse s with
  | none => none
  | some d => if compare_dates d maxD then some d else none

/-- Python `str(n)` as characters. -/
def natStr (n : Nat) : List Char := (toString n).toList

/-- Does `pat` occur at the head of `s`? -/
def strStartsWith : List Char → List Char → Bool
  | [], _ => true
  | _ :: _, [] => false
  | p :: ps, c :: cs => p == c && strStartsWith ps cs

/-- Python `pat in s` (substring test). -/
def strContains (pat : List Char) : List Char → Bool
  | [] => strStartsWith pat []
  | c :: r => strStartsWith pat (c :: r) || strContains pat r

/-- The validation loop of `dateparser_search` (source lines 301-317): for
each (substring, date) pair, require the last two digits of the year in the
substring; undo the library's "future" century preference when the full year
is absent and the year exceeds `MAX_DATE.year + 1` (`y = d.year - 100`);
rebuild the date (`datetime.datetime(y, d.month, d.day)` — this construction
sits outside the `try` and can raise); keep dates that are
`<= MAX_DATE` and `>= MIN_YEAR`. -/
def dps_valid (maxD : PyDate) : List (List Char × PyDate) → Except PyError (List PyDate)
  | [] => .ok []
  | (str, d) :: rest =>
      if strContains (natStr (d.year % 100)) str then
        match mkDatetime
            (if strContains (natStr d.year) str = false ∧ d.year > maxD.year + 1 then
              d.year - 100 else d.year) d.month d.day with
        | .error e => .error e
        | .ok d2 =>
            match dps_valid maxD rest with
            | .error e => .error e
            | .ok tail =>
                .ok (if compare_dates d2 maxD = true ∧ MIN_YEAR ≤ d2.year then
                  d2 :: tail else tail)
      else dps_valid maxD rest

/-- Source `dateparser_search(line)` (lines 277-320): empty list when the
library raises or returns `None`; otherwise the validated dates. -/
def dateparser_search (dpSearch : DpSearch) (maxD : PyDate) (line : List Char) :
    Except PyError (List PyDate) :=
  match dpSearch line with
  | none => .ok []
  | some pairs => dps_valid maxD pairs

/-- Source `complete_year(year)` (lines 322-328): complete a 2-digit year
with a pivot at `MAX_DATE.year % 100`. -/
def complete_year (maxD : PyDate) (year : Nat) : Nat :=
  if year < 100 then
    (if year ≤ maxD.year % 100 then year + 2000 else year + 1900)
  else year

/-- Source `validate_date(day, month, year)` (lines 330-336): range bounds
only — day 1..31, month 1..12, year in `[MIN_YEAR, MAX_DATE.year]`; the day
is **not** checked against the month's length. -/
def validate_date (maxD : PyDate) (day month year : Nat) : Bool :=
  decide (year ≤ maxD.year) && decide (MIN_YEAR ≤ year) &&
    decide (1 ≤ day) && decide (day ≤ 31) &&
    decide (1 ≤ month) && decide (month ≤ 12)

/-- Stage 7 of `date_from_string` (source lines 405-410): a bare year token,
score 2 via `find_year`, else `(None, 0)`. -/
def dfs_p7 (maxD : PyDate) (line : List Char) : Except PyError (Option PyDate × Nat) :=
  match findYearTok line with
  | some _ =>
      match find_year maxD line with
      | some y => .ok (some y, 2)
      | none => .ok (none, 0)
  | none => .ok (none, 0)

/-- Stage 6 of `date_from_string` (source lines 393-403): the compact
filename date, score 5. -/
def dfs_p6 (maxD : PyDate) (line : List Char) : Except PyError (Option PyDate × Nat) :=
  match p6Search line with
  | some (year, month, day) =>
      if validate_date maxD day month year then
        match mkDatetime year month day with
        | .error e => .error e
        | .ok d => if compare_dates d maxD then .ok (some d, 5) else dfs_p7 maxD line
      else dfs_p7 maxD line
  | none => dfs_p7 maxD line

/-- Stage 5 of `date_from_string` (source lines 380-391): a day number, a
month name and a year, via `dateparser_parse` on the matched text; score 10
with a day number, 5 without. -/
def dfs_p5 (dpParse : DpParse) (maxD : PyDate) (line : List Char) :
    Except PyError (Option PyDate × Nat) :=
  match p5Search line with
  | some (dayEmpty, text) =>
      match dateparser_parse dpParse maxD text with
      | some d => .ok (some d, if dayEmpty then 5 else 10)
      | none => dfs_p6 maxD line
  | none => dfs_p6 maxD line

/-- Stage 4 of `date_from_string` (source lines 364-378): the numeric date;
swap day and year when the day field is a 4-digit `19xx`/`20xx`; complete a
2-digit year; validate; construct the `datetime` (which can raise on, e.g.,
February 30); reject the future; score 10. -/
def dfs_p4 (dpParse : DpParse) (maxD : PyDate) (line : List Char) :
    Except PyError (Option PyDate × Nat) :=
  match p4Search false line with
  | some (day0, month, year0) =>
      match (if day0 / 100 = 19 ∨ day0 / 100 = 20 then (year0, day0) else (day0, year0)) with
      | (day, year) =>
          if validate_date maxD day month (complete_year maxD year) then
            match mkDatetime (complete_year maxD year) month day with
            | .error e => .error e
            | .ok d =>
                if compare_dates d maxD then .ok (some d, 10) else dfs_p5 dpParse maxD line
          else dfs_p5 dpParse maxD line
  | none => dfs_p5 dpParse maxD line

/-- Stage 3 of `date_from_string` (source lines 357-362): free-text search
after a bare "date:" label, first hit, score 5. -/
def dfs_p3 (dpParse : DpParse) (dpSearch : DpSearch) (maxD : PyDate) (line : List Char) :
    Except PyError (Option PyDate × Nat) :=
  match p3Search false line with
  | some rest =>
      match dateparser_search dpSearch maxD rest with
      | .error e => .error e
      | .ok [] => dfs_p4 dpParse maxD line
      | .ok (d :: _) => .ok (some d, 5)
  | none => dfs_p4 dpParse maxD line

/-- Stage 2 of `date_from_string` (source lines 350-355): an explicit
"Date: ... <4-digit year>" label via `dateparser_parse`, score 30. -/
def dfs_p2 (dpParse : DpParse) (dpSearch : DpSearch) (maxD : PyDate) (line : List Char) :
    Except PyError (Option PyDate × Nat) :=
  match p2Search false line with
  | some grp =>
      match dateparser_parse dpParse maxD grp with
      | some d => .ok (some d, 30)
      | none => dfs_p3 dpParse dpSearch maxD line
  | none => dfs_p3 dpParse dpSearch maxD line

/-- Source `date_from_string(line)` (lines 338-410): the ordered battery of
patterns, stopping at the first that produces a date; `(None, 0)` when none
does.  Pattern 1 feeds `"le " + group` to `dateparser_parse`, score 30. -/
def date_from_string (dpParse : DpParse) (dpSearch : DpSearch) (maxD : PyDate)
    (line : List Char) : Except PyError (Option PyDate × Nat) :=
  match p1Search line with
  | some grp =>
      match dateparser_parse dpParse maxD (("le ").toList ++ grp) with
      | some d => .ok (some d, 30)
      | none => dfs_p2 dpParse dpSearch maxD line
  | none => dfs_p2 dpParse dpSearch maxD line

deriving instance DecidableEq for Except

/-- A `dateparser.parse` collaborator that always fails (also what the
wrapper sees when the library raises). -/
def dpParseNone : DpParse := fun _ => none

/-- A `dateparser.search.search_dates` collaborator that always fails. -/
def dpSearchNone : DpSearch := fun _ => none

/-- A concrete reference processing date (an operator-set `MAX_DATE`). -/
def maxDate2023 : PyDate := ⟨2023, 11, 30⟩

/-! ### Claim C2: the date inference is not total -/

/-- Claim C2 (code bug): on the line "30/02/2020" the numeric pattern
matches, `validate_date` passes (day 30 is within 1..31, month 2 within
1..12), and `datetime.datetime(2020, 2, 30)` raises `ValueError` — so
`date_from_string` raises instead of returning `(date, score)` or
`(None, 0)`, contradicting the totality the claim (and the spec's section 7)
asserts.  The crash does not depend on the external library: no earlier
pattern matches this line, whatever `dpP` and `dpS` return. -/
theorem date_from_string_feb30_raises (dpP : DpParse) (dpS : DpSearch) :
    date_from_string dpP dpS maxDate2023 (("30/02/2020").toList) =
      .error .valueError := rfl

/-! ### Claim C8: year bounds of every produced date -/

theorem compare_dates_year_le {d m : PyDate} (h : compare_dates d m = true) :
    d.year ≤ m.year := by
  simp [compare_dates] at h
  omega

theorem validate_date_bounds {maxD : PyDate} {day month year : Nat}
    (h : validate_date maxD day month year = true) :
    MIN_YEAR ≤ year ∧ year ≤ maxD.year := by
  simp [validate_date, MIN_YEAR] at h ⊢
  omega

theorem mkDatetime_ok_year {y m d : Nat} {dd : PyDate} (h : mkDatetime y m d = .ok dd) :
    dd.year = y := by
  unfold mkDatetime at h
  split at h
  · injection h with h2
    rw [← h2]
  · exact absurd h (by simp)

theorem dateparser_parse_bounds {dpP : DpParse} {maxD : PyDate} {s : List Char}
    {d : PyDate} (h : dateparser_parse dpP maxD s = some d) :
    dpP s = some d ∧ d.year ≤ maxD.year := by
  unfold dateparser_parse at h
  cases hd : dpP s with
  | none => rw [hd] at h; exact absurd h (by simp)
  | some e =>
      rw [hd] at h
      replace h : (if compare_dates e maxD = true then some e else none) = some d := h
      by_cases hc : compare_dates e maxD = true
      · rw [if_pos hc] at h
        have he : e = d := by simpa using h
        subst he
        exact ⟨rfl, compare_dates_year_le hc⟩
      · rw [if_neg hc] at h
        exact absurd h (by simp)

theorem dps_valid_bounds {maxD : PyDate} :
    ∀ (pairs : List (List Char × PyDate)) (l : List PyDate),
      dps_valid maxD pairs = .ok l →
        ∀ d ∈ l, MIN_YEAR ≤ d.year ∧ d.year ≤ maxD.year := by
  intro pairs
  induction pairs with
  | nil =>
    intro l h d hd
    have hl : ([] : List PyDate) = l := by simpa [dps_valid] using h
    rw [← hl] at hd
    simp at hd
  | cons p rest ih =>
    intro l h d hd
    obtain ⟨str0, d0⟩ := p
    rw [dps_valid] at h
    split at h
    · cases hm : mkDatetime
          (if strContains (natStr d0.year) str0 = false ∧ d0.year > maxD.year + 1 then
            d0.year - 100 else d0.year) d0.month d0.day with
      | error e => rw [hm] at h; exact absurd h (by simp)
      | ok d2 =>
        rw [hm] at h
        cases hr : dps_valid maxD rest with
        | error e => rw [hr] at h; exact absurd h (by simp)
        | ok tail =>
          rw [hr] at h
          have hl : (if compare_dates d2 maxD = true ∧ MIN_YEAR ≤ d2.year then
              d2 :: tail else tail) = l := by simpa using h
          by_cases hc : compare_dates d2 maxD = true ∧ MIN_YEAR ≤ d2.year
          · rw [if_pos hc] at hl
            rw [← hl] at hd
            rcases List.mem_cons.mp hd with hd | hd
            · subst hd
              exact ⟨hc.2, compare_dates_year_le hc.1⟩
            · exact ih tail hr d hd
          · rw [if_neg hc] at hl
            rw [← hl] at hd
            exact ih tail hr d hd
    · exact ih l h d hd

theorem foldl_max_le {b : Nat} :
    ∀ (l : List Nat) (a : Nat), a ≤ b → (∀ x ∈ l, x ≤ b) → l.foldl max a ≤ b := by
  intro l
  induction l with
  | nil => intro a ha _; exact ha
  | cons x t ih =>
    intro a ha hx
    rw [List.foldl_cons]
    exact ih (max a x) (by have := hx x (by simp); omega)
      (fun z hz => hx z (by simp [hz]))

theorem init_le_foldl_max : ∀ (l : List Nat) (a : Nat), a ≤ l.foldl max a := by
  intro l
  induction l with
  | nil => intro a; exact le_refl a
  | cons z t ih =>
    intro a
    rw [List.foldl_cons]
    exact le_trans (le_max_left a z) (ih (max a z))

theorem le_foldl_max :
    ∀ (l : List Nat) (x : Nat), x ∈ l → ∀ a, x ≤ l.foldl max a := by
  intro l
  induction l with
  | nil => intro x hx; simp at hx
  | cons z t ih =>
    intro x hx a
    rw [List.foldl_cons]
    rcases List.mem_cons.mp hx with hx | hx
    · subst hx
      exact le_trans (le_max_right a x) (init_le_foldl_max t (max a x))
    · exact ih x hx (max a z)

theorem find_year_bounds {maxD : PyDate} {s : List Char} {y : PyDate}
    (h : find_year maxD s = some y) :
    MIN_YEAR ≤ y.year ∧ y.year ≤ maxD.year ∧ y.month = 1 ∧ y.day = 1 := by
  unfold find_year at h
  cases hf : (yearToks s).filter (fun y => decide (y ≤ maxD.year) && decide (MIN_YEAR ≤ y)) with
  | nil => rw [hf] at h; exact absurd h (by simp)
  | cons y0 ys =>
    rw [hf] at h
    have hy : (⟨(y0 :: ys).foldl max 0, 1, 1⟩ : PyDate) = y := by simpa using h
    have hmem : ∀ x ∈ y0 :: ys, x ≤ maxD.year ∧ MIN_YEAR ≤ x := by
      intro x hx
      have := List.mem_filter.mp (by rw [hf]; exact hx)
      simpa using this.2
    rw [← hy]
    refine ⟨?_, ?_, rfl, rfl⟩
    · have h0 := (hmem y0 (by simp)).2
      have := le_foldl_max (y0 :: ys) y0 (by simp) 0
      simp only []
      omega
    · exact foldl_max_le (y0 :: ys) 0 (by omega) (fun x hx => (hmem x hx).1)

theorem dfs_p7_bounds {maxD : PyDate} {line : List Char} {d : PyDate} {s : Nat}
    (h : dfs_p7 maxD line = .ok (some d, s)) :
    MIN_YEAR ≤ d.year ∧ d.year ≤ maxD.year := by
  unfold dfs_p7 at h
  split at h
  · split at h
    · rename_i y hy
      injection h with h2
      injection h2 with h3 h4
      injection h3 with h5
      obtain ⟨h1, h2, _, _⟩ := find_year_bounds hy
      rw [← h5]
      exact ⟨h1, h2⟩
    · exact absurd h (by simp)
  · exact absurd h (by simp)

theorem dfs_p6_bounds {maxD : PyDate} {line : List Char} {d : PyDate} {s : Nat}
    (h : dfs_p6 maxD line = .ok (some d, s)) :
    MIN_YEAR ≤ d.year ∧ d.year ≤ maxD.year := by
  unfold dfs_p6 at h
  split at h
  · rename_i r year month day
    split at h
    · rename_i hv
      split at h
      · exact absurd h (by simp)
      · rename_i d2 hm
        split at h
        · injection h with h2
          injection h2 with h3 h4
          injection h3 with h5
          rw [← h5, mkDatetime_ok_year hm]
          exact validate_date_bounds hv
        · exact dfs_p7_bounds h
    · exact dfs_p7_bounds h
  · exact dfs_p7_bounds h

theorem dfs_p5_bounds {dpP : DpParse} {maxD : PyDate} {line : List Char} {d : PyDate} {s : Nat}
    (hdp : ∀ t e, dpP t = some e → MIN_YEAR ≤ e.year)
    (h : dfs_p5 dpP maxD line = .ok (some d, s)) :
    MIN_YEAR ≤ d.year ∧ d.year ≤ maxD.year := by
  unfold dfs_p5 at h
  split at h
  · rename_i dayEmpty text hps
    split at h
    · rename_i e hdpp
      injection h with h2
      injection h2 with h3 h4
      injection h3 with h5
      obtain ⟨hraw, hub⟩ := dateparser_parse_bounds hdpp
      rw [← h5]
      exact ⟨hdp text e hraw, hub⟩
    · exact dfs_p6_bounds h
  · exact dfs_p6_bounds h

theorem dfs_p4_bounds {dpP : DpParse} {maxD : PyDate} {line : List Char} {d : PyDate} {s : Nat}
    (hdp : ∀ t e, dpP t = some e → MIN_YEAR ≤ e.year)
    (h : dfs_p4 dpP maxD line = .ok (some d, s)) :
    MIN_YEAR ≤ d.year ∧ d.year ≤ maxD.year := by
  unfold dfs_p4 at h
  split at h
  · rename_i r day0 month year0
    split at h
    · rename_i day year
      split at h
      · rename_i hv
        split at h
        · exact absurd h (by simp)
        · rename_i d2 hm
          split at h
          · injection h with h2
            injection h2 with h3 h4
            injection h3 with h5
            rw [← h5, mkDatetime_ok_year hm]
            exact validate_date_bounds hv
          · exact dfs_p5_bounds hdp h
      · exact dfs_p5_bounds hdp h
  · exact dfs_p5_bounds hdp h

theorem dfs_p3_bounds {dpP : DpParse} {dpS : DpSearch} {maxD : PyDate} {line : List Char}
    {d : PyDate} {s : Nat}
    (hdp : ∀ t e, dpP t = some e → MIN_YEAR ≤ e.year)
    (h : dfs_p3 dpP dpS maxD line = .ok (some d, s)) :
    MIN_YEAR ≤ d.year ∧ d.year ≤ maxD.year := by
  unfold dfs_p3 at h
  split at h
  · rename_i rest hp3
    split at h
    · exact absurd h (by simp)
    · exact dfs_p4_bounds hdp h
    · rename_i e tail hds
      injection h with h2
      injection h2 with h3 h4
      injection h3 with h5
      rw [← h5]
      unfold dateparser_search at hds
      split at hds
      · exact absurd hds (by simp)
      · rename_i pairs hraw
        have := dps_valid_bounds pairs (e :: tail) hds e (by simp)
        exact this
  · exact dfs_p4_bounds hdp h

theorem dfs_p2_bounds {dpP : DpParse} {dpS : DpSearch} {maxD : PyDate} {line : List Char}
    {d : PyDate} {s : Nat}
    (hdp : ∀ t e, dpP t = some e → MIN_YEAR ≤ e.year)
    (h : dfs_p2 dpP dpS maxD line = .ok (some d, s)) :
    MIN_YEAR ≤ d.year ∧ d.year ≤ maxD.year := by
  unfold dfs_p2 at h
  split at h
  · rename_i grp hp2
    split at h
    · rename_i e hdpp
      injection h with h2
      injection h2 with h3 h4
      injection h3 with h5
      obtain ⟨hraw, hub⟩ := dateparser_parse_bounds hdpp
      rw [← h5]
      exact ⟨hdp grp e hraw, hub⟩
    · exact dfs_p3_bounds hdp h
  · exact dfs_p3_bounds hdp h

theorem date_from_string_bounds {dpP : DpParse} {dpS : DpSearch} {maxD : PyDate}
    {line : List Char} {d : PyDate} {s : Nat}
    (hdp : ∀ t e, dpP t = some e → MIN_YEAR ≤ e.year)
    (h : date_from_string dpP dpS maxD line = .ok (some d, s)) :
    MIN_YEAR ≤ d.year ∧ d.year ≤ maxD.year := by
  unfold date_from_string at h
  split at h
  · rename_i grp hp1
    split at h
    · rename_i e hdpp
      injection h with h2
      injection h2 with h3 h4
      injection h3 with h5
      obtain ⟨hraw, hub⟩ := dateparser_parse_bounds hdpp
      rw [← h5]
      exact ⟨hdp (("le ").toList ++ grp) e hraw, hub⟩
    · exact dfs_p2_bounds hdp h
  · exact dfs_p2_bounds hdp h

/-- Claim C8 (confirmed): under the one assumption the repository places on
its external single-date parser — that it returns dates no older than
`MIN_YEAR` (every string handed to it carries a `19xx`/`20xx` token, and the
other patterns re-check the bound themselves) — every date produced by
`date_from_string` has `year ∈ [MIN_YEAR, reference_year]`; the upper bound
needs **no** assumption (every pattern filters through `compare_dates`
against `MAX_DATE` or `validate_date`).  In particular a 2-digit year is
completed by `complete_year` with the pivot `MAX_DATE.year % 100` (at most
the pivot → `2000 + yy`, above it → `1900 + yy`), so an adversarial 2-digit
year cannot resolve past the reference date. -/
theorem date_pattern_year_bounds (dpP : DpParse) (dpS : DpSearch) (maxD : PyDate)
    (line : List Char)
    (hdp : ∀ t e, dpP t = some e → MIN_YEAR ≤ e.year) :
    (∀ d s, date_from_string dpP dpS maxD line = .ok (some d, s) →
        MIN_YEAR ≤ d.year ∧ d.year ≤ maxD.year) ∧
      (∀ y, y < 100 →
        complete_year maxD y =
          if y ≤ maxD.year % 100 then 2000 + y else 1900 + y) ∧
      (∀ y, 100 ≤ y → complete_year maxD y = y) := by
  refine ⟨fun d s h => date_from_string_bounds hdp h, fun y hy => ?_, fun y hy => ?_⟩
  · unfold complete_year
    rw [if_pos hy]
    split <;> omega
  · unfold complete_year
    rw [if_neg (by omega)]

/-- Witness for C8: the all-failing parser satisfies the hypothesis, and on
"Le 03/12/18" the numeric pattern produces December 3, 2018 (the 2-digit
year 18 completed to 2018 by the pivot), within `[1900, 2023]`. -/
theorem date_pattern_year_bounds_witness :
    (∀ t e, dpParseNone t = some e → MIN_YEAR ≤ e.year) ∧
      date_from_string dpParseNone dpSearchNone maxDate2023 (("Le 03/12/18").toList) =
        .ok (some ⟨2018, 12, 3⟩, 10) ∧
      (MIN_YEAR ≤ (2018 : Nat) ∧ (2018 : Nat) ≤ maxDate2023.year) :=
  ⟨fun t e h => by exact absurd h (by simp [dpParseNone]),
   by decide,
   (date_pattern_year_bounds dpParseNone dpSearchNone maxDate2023 (("Le 03/12/18").toList)
     (fun t e h => by exact absurd h (by simp [dpParseNone]))).1
     ⟨2018, 12, 3⟩ 10 (by decide)⟩

/-! ### Claim C10: January 1 renders as Unknown_month -/

/-- Source `year_month_from_date(date)` (lines 743-755): undo a possible
century slip (`y = date.year - 100` when `date.year > MAX_DATE.year + 1`),
and return `month = None` whenever the date is a January 1st — the marker
`find_year` uses for bare years — even when the date is a genuine, fully
specified January 1. -/
def year_month_from_date (maxD : PyDate) : Option PyDate → Option Nat × Option Nat
  | none => (none, none)
  | some d =>
      (some (if d.year > maxD.year + 1 then d.year - 100 else d.year),
        if d.month = 1 ∧ d.day = 1 then none else some d.month)

/-- Python `"%02d" % m`, for `m < 100`. -/
def format02 (m : Nat) : String := if m < 10 then "0" ++ toString m else toString m

/-- The year/month rendering of `rename` (source lines 890-899): `None` year
becomes "Unknown_year" with an empty month; otherwise `None` month becomes
"Unknown_month", a present month is zero-padded. -/
def render_year_month : Option Nat × Option Nat → String × String
  | (none, _) => ("Unknown_year", "")
  | (some y, none) => (toString y, "Unknown_month")
  | (some y, some m) => (toString y, format02 m)

/-- Claim C10 (confirmed): any inferred date with month 1 and day 1 — also a
genuine January 1st produced by the Date Pattern Matcher on a title or a
text line — is emitted by `year_month_from_date` with `month = None` and
rendered by `rename` as "Unknown_month", never as "01". -/
theorem january_first_renders_unknown_month (dpP : DpParse) (dpS : DpSearch)
    (maxD : PyDate) (line : List Char) (d : PyDate) (s : Nat)
    (hres : date_from_string dpP dpS maxD line = .ok (some d, s))
    (hm : d.month = 1) (hd : d.day = 1) :
    (render_year_month (year_month_from_date maxD (some d))).2 = "Unknown_month" ∧
      (render_year_month (year_month_from_date maxD (some d))).2 ≠ "01" := by
  have hym : year_month_from_date maxD (some d) =
      (some (if d.year > maxD.year + 1 then d.year - 100 else d.year), none) := by
    unfold year_month_from_date
    simp [hm, hd]
  rw [hym]
  refine ⟨rfl, ?_⟩
  show ("Unknown_month" : String) ≠ "01"
  decide

/-- Witness for C10: "Le 01/01/18" yields the genuine full date
January 1, 2018 with score 10 through the numeric pattern, and its month
renders as "Unknown_month". -/
theorem january_first_renders_unknown_month_witness :
    date_from_string dpParseNone dpSearchNone maxDate2023 (("Le 01/01/18").toList) =
        .ok (some ⟨2018, 1, 1⟩, 10) ∧
      (render_year_month (year_month_from_date maxDate2023 (some ⟨2018, 1, 1⟩))).2 =
        "Unknown_month" ∧
      (render_year_month (year_month_from_date maxDate2023 (some ⟨2018, 1, 1⟩))).2 ≠ "01" :=
  ⟨by decide,
   january_first_renders_unknown_month dpParseNone dpSearchNone maxDate2023
     (("Le 01/01/18").toList) ⟨2018, 1, 1⟩ 10 (by decide) rfl rfl⟩

/-! ### Claim C3: the scan loop of `date_from_txt` -/

/-- The scan loop of source `date_from_txt` (lines 434-444), instrumented
with the number of lines to which `date_from_string` was applied.  The
counter is incremented once per line **and then again by the score of the
line's match** (`count += score`), and the loop stops as soon as the counter
exceeds `MAX_LINES`. -/
def date_from_txt_loop (dpP : DpParse) (dpS : DpSearch) (maxD : PyDate) (maxLines : Nat) :
    Nat → List (List Char) → Except PyError (List (PyDate × Nat) × Nat)
  | _, [] => .ok ([], 0)
  | count, raw :: rest =>
      if count + 1 > maxLines then .ok ([], 0)
      else
        match date_from_string dpP dpS maxD (pyStrip raw) with
        | .error e => .error e
        | .ok (dOpt, score) =>
            match date_from_txt_loop dpP dpS maxD maxLines (count + 1 + score) rest with
            | .error e => .error e
            | .ok (cands, scanned) =>
                .ok ((match dOpt with
                  | some d => (d, score) :: cands
                  | none => cands), scanned + 1)

/-- Source `date_from_txt` (lines 427-450): collect the candidates of the
scan loop, then reduce with `max_dates (max_scores ·))`; `None` when no
candidate was found. -/
def date_from_txt (dpP : DpParse) (dpS : DpSearch) (maxD : PyDate) (maxLines : Nat)
    (lines : List (List Char)) : Except PyError (Option PyDate) :=
  match date_from_txt_loop dpP dpS maxD maxLines 0 lines with
  | .error e => .error e
  | .ok (cands, _) =>
      if cands = [] then .ok none else .ok (max_dates (max_scores cands))

/-- Counterexample to claim C3 as stated: with a line cap of 2 and four
lines, the first of which matches the compact-date pattern with score 5
(pushing the counter from 1 to 6 > 2), only **one** line is ever given to
the Date Pattern Matcher — not `min 2 4 = 2` — so the number of lines
scanned depends on the scores found, not only on the cap and the number of
lines. -/
theorem date_from_txt_scan_cex :
    date_from_txt_loop dpParseNone dpSearchNone maxDate2023 2 0
        [("a _20230504_ b").toList, ("aa").toList, ("bb").toList, ("cc").toList] =
      .ok ([(⟨2023, 5, 4⟩, 5)], 1) ∧ (1 : Nat) ≠ min 2 4 :=
  ⟨by decide, by decide⟩

theorem date_from_txt_loop_le {dpP : DpParse} {dpS : DpSearch} {maxD : PyDate} :
    ∀ (lines : List (List Char)) (maxLines count : Nat) (c : List (PyDate × Nat)) (n : Nat),
      date_from_txt_loop dpP dpS maxD maxLines count lines = .ok (c, n) →
        n ≤ min (maxLines - count) lines.length := by
  intro lines
  induction lines with
  | nil =>
    intro maxLines count c n h
    have hn : (0 : Nat) = n := by
      have := (by simpa [date_from_txt_loop] using h : ([] : List (PyDate × Nat)) = c ∧ 0 = n)
      exact this.2
    omega
  | cons raw rest ih =>
    intro maxLines count c n h
    rw [date_from_txt_loop] at h
    split at h
    · injection h with h2
      injection h2 with h3 h4
      omega
    · rename_i hcap
      split at h
      · exact absurd h (by simp)
      · rename_i dOpt score hdfs
        split at h
        · exact absurd h (by simp)
        · rename_i cands scanned hloop
          injection h with h2
          injection h2 with h3 h4
          have hih := ih maxLines (count + 1 + score) cands scanned hloop
          simp only [List.length_cons]
          simp only [Nat.lt_iff_add_one_le, not_lt] at hcap
          omega

theorem date_from_txt_loop_zero {dpP : DpParse} {dpS : DpSearch} {maxD : PyDate} :
    ∀ (lines : List (List Char)) (maxLines count : Nat),
      (∀ raw ∈ lines, date_from_string dpP dpS maxD (pyStrip raw) = .ok (none, 0)) →
      date_from_txt_loop dpP dpS maxD maxLines count lines =
        .ok ([], min (maxLines - count) lines.length) := by
  intro lines
  induction lines with
  | nil => intro maxLines count _; simp [date_from_txt_loop]
  | cons raw rest ih =>
    intro maxLines count hz
    rw [date_from_txt_loop]
    by_cases hcap : count + 1 > maxLines
    · rw [if_pos hcap]
      have hm : min (maxLines - count) (raw :: rest).length = 0 := by
        simp only [List.length_cons]
        omega
      rw [hm]
    · rw [if_neg hcap]
      simp only [hz raw (by simp),
        ih maxLines (count + 1 + 0) (fun r hr => hz r (by simp [hr]))]
      have harith : min (maxLines - (count + 1 + 0)) rest.length + 1 =
          min (maxLines - count) (raw :: rest).length := by
        simp only [List.length_cons]
        omega
      rw [harith]

/-- Claim C3 as amended: the scan loop of `date_from_txt` applies the Date
Pattern Matcher to at most `min line-cap #lines` lines, and to exactly that
many **only** when every scanned line scores 0; a line matching with score
`s` additionally consumes `s` units of the line budget (`count += score`),
so high-scoring matches shorten the scan. -/
theorem date_from_txt_scan_budget (dpP : DpParse) (dpS : DpSearch) (maxD : PyDate)
    (maxLines : Nat) (lines : List (List Char)) :
    (∀ c n, date_from_txt_loop dpP dpS maxD maxLines 0 lines = .ok (c, n) →
        n ≤ min maxLines lines.length) ∧
      ((∀ raw ∈ lines, date_from_string dpP dpS maxD (pyStrip raw) = .ok (none, 0)) →
        date_from_txt_loop dpP dpS maxD maxLines 0 lines =
          .ok ([], min maxLines lines.length)) := by
  constructor
  · intro c n h
    have := date_from_txt_loop_le lines maxLines 0 c n h
    simpa using this
  · intro hz
    have := date_from_txt_loop_zero lines maxLines 0 hz
    simpa using this

/-- Witness for the amended C3: three score-0 lines under a cap of 2 — the
matcher is applied to exactly `min 2 3 = 2` lines. -/
theorem date_from_txt_scan_budget_witness :
    (∀ raw ∈ [("aa").toList, ("bb").toList, ("cc").toList],
        date_from_string dpParseNone dpSearchNone maxDate2023 (pyStrip raw) =
          .ok (none, 0)) ∧
      date_from_txt_loop dpParseNone dpSearchNone maxDate2023 2 0
          [("aa").toList, ("bb").toList, ("cc").toList] =
        .ok ([], min 2 3) :=
  ⟨by decide,
   (date_from_txt_scan_budget dpParseNone dpSearchNone maxDate2023 2
     [("aa").toList, ("bb").toList, ("cc").toList]).2 (by decide)⟩

/-! ## The Metadata Resolver (the tag phase of `find_date`) -/

/-- The category-specific tag list of `find_date` (source lines 762-770):
`["ModifyDate", "CreateDate"]`, with `"PDF:ModifyDate"` inserted first for
`pdf`/`ai`, `"ZipModifyDate"` appended for `zip`, and `"Date"`,
`"Creation-date"` appended for `ods`/`odt`. -/
def search_tags (extension : String) : List String :=
  let base := ["ModifyDate", "CreateDate"]
  let base2 := if extension = "pdf" ∨ extension = "ai" then "PDF:ModifyDate" :: base else base
  if extension = "zip" then base2 ++ ["ZipModifyDate"]
  else if extension = "ods" ∨ extension = "odt" then base2 ++ ["Date", "Creation-date"]
  else base2

/-- The first loop of `find_date` (source lines 772-778): `get_tag` is
called once for **every** tag of the list ("for easier debugging we first
print all the date tags we consider"), collecting the present values in
order.  Returns (tags consulted, values collected). -/
def collect_exifdates (lookup : String → Option (List Char)) :
    List String → List String × List (List Char)
  | [] => ([], [])
  | t :: ts =>
      match collect_exifdates lookup ts, lookup t with
      | (cons_tags, vals), some v => (t :: cons_tags, v :: vals)
      | (cons_tags, vals), none => (t :: cons_tags, vals)

/-- Python `s.split(sep)` for a one-character separator. -/
def splitOnChar (sep : Char) : List Char → List (List Char)
  | [] => [[]]
  | c :: r =>
      if c = sep then [] :: splitOnChar sep r
      else
        match splitOnChar sep r with
        | [] => [[c]]
        | h :: t => (c :: h) :: t

/-- Python `datetime.datetime.strptime(s, "%Y:%m:%d")`: three colon-separated
digit fields (`%Y` exactly 4 digits, `%m`/`%d` one or two), then full calendar
validation (a `ValueError` is caught by the surrounding `try`). -/
def strptime_Ymd (s : List Char) : Option PyDate :=
  match splitOnChar ':' s with
  | [ys, ms, ds] =>
      if ys.length = 4 ∧ ys.all pyDigit = true ∧
          ms ≠ [] ∧ ms.length ≤ 2 ∧ ms.all pyDigit = true ∧
          ds ≠ [] ∧ ds.length ≤ 2 ∧ ds.all pyDigit = true then
        match mkDatetime (digitsVal ys) (digitsVal ms) (digitsVal ds) with
        | .ok d => some d
        | .error _ => none
      else none
  | _ => none

/-- Python `strptime(s, "%d/%m/%y")`: `%y` takes exactly two digits and is
completed with the POSIX pivot (00-68 → 2000s, 69-99 → 1900s). -/
def strptime_dmy2 (s : List Char) : Option PyDate :=
  match splitOnChar '/' s with
  | [ds, ms, ys] =>
      if ds ≠ [] ∧ ds.length ≤ 2 ∧ ds.all pyDigit = true ∧
          ms ≠ [] ∧ ms.length ≤ 2 ∧ ms.all pyDigit = true ∧
          ys.length = 2 ∧ ys.all pyDigit = true then
        match mkDatetime
            (if digitsVal ys ≤ 68 then 2000 + digitsVal ys else 1900 + digitsVal ys)
            (digitsVal ms) (digitsVal ds) with
        | .ok d => some d
        | .error _ => none
      else none
  | _ => none

/-- Python `strptime(s, "%d/%m/%Y")`: like the previous format with an
exactly-4-digit year field. -/
def strptime_dmY4 (s : List Char) : Option PyDate :=
  match splitOnChar '/' s with
  | [ds, ms, ys] =>
      if ds ≠ [] ∧ ds.length ≤ 2 ∧ ds.all pyDigit = true ∧
          ms ≠ [] ∧ ms.length ≤ 2 ∧ ms.all pyDigit = true ∧
          ys.length = 4 ∧ ys.all pyDigit = true then
        match mkDatetime (digitsVal ys) (digitsVal ms) (digitsVal ds) with
        | .ok d => some d
        | .error _ => none
      else none
  | _ => none

/-- Python `strptime(s, "%d %B %Y")`: the argument is `d.split(' ')[0]`,
which contains no space, while this format requires two — it can never
parse, so it uniformly fails. -/
def strptime_dBY (s : List Char) : Option PyDate := none

/-- The per-value format loop of `find_date` (source lines 780-804): try the
four formats in order on `d.split(' ')[0]`, first success wins, failures
(`ValueError`) are swallowed. -/
def strptime_first (v : List Char) : Option PyDate :=
  match strptime_Ymd (v.takeWhile (fun c => c ≠ ' ')) with
  | some d => some d
  | none =>
      match strptime_dmy2 (v.takeWhile (fun c => c ≠ ' ')) with
      | some d => some d
      | none =>
          match strptime_dmY4 (v.takeWhile (fun c => c ≠ ' ')) with
          | some d => some d
          | none => strptime_dBY (v.takeWhile (fun c => c ≠ ' '))

/-- The second loop of `find_date` (source lines 779-812): for each
collected tag value, the first value that `strptime` parses returns
`(year, month)` immediately; otherwise the free-text search is tried on the
value and, if it finds dates, `year_month_from_date (max_dates ...)` is
returned; else the loop moves to the next value.  `none` means fall through
to the title/text scan. -/
def parse_exifdates (dpSearch : DpSearch) (maxD : PyDate) :
    List (List Char) → Except PyError (Option (Option Nat × Option Nat))
  | [] => .ok none
  | v :: rest =>
      match strptime_first v with
      | some date => .ok (some (some date.year, some date.month))
      | none =>
          match dateparser_search dpSearch maxD v with
          | .error e => .error e
          | .ok [] => parse_exifdates dpSearch maxD rest
          | .ok (p :: ps) => .ok (some (year_month_from_date maxD (max_dates (p :: ps))))

/-- The metadata phase of `find_date`: collect every tag value (consulting
the tag lookup once per tag name), then parse.  Returns (the tags consulted,
the phase's outcome). -/
def find_date_meta (lookup : String → Option (List Char)) (dpSearch : DpSearch)
    (maxD : PyDate) (extension : String) :
    List String × Except PyError (Option (Option Nat × Option Nat)) :=
  match collect_exifdates lookup (search_tags extension) with
  | (tags, vals) => (tags, parse_exifdates dpSearch maxD vals)

/-- The concrete tag lookup of the C1 counterexample: the first tag in
priority order holds a value that the first `strptime` format parses. -/
def lookupBoth : String → Option (List Char) := fun t =>
  if t = "ModifyDate" then some (("2017:01:09 12:23").toList)
  else if t = "CreateDate" then some (("2018:05:06").toList)
  else none

/-- Counterexample to claim C1 as stated: even though the first tag
("ModifyDate") yields "2017:01:09 12:23", which parses to January 9, 2017
and decides the result, the tag lookup is still invoked for the subsequent
tag name "CreateDate" — the source fetches **all** tag values before
parsing any. -/
theorem find_date_meta_consults_later_tags_cex :
    strptime_first (("2017:01:09 12:23").toList) = some ⟨2017, 1, 9⟩ ∧
      (find_date_meta lookupBoth dpSearchNone maxDate2023 "doc").2 =
        .ok (some (some 2017, some 1)) ∧
      (find_date_meta lookupBoth dpSearchNone maxDate2023 "doc").1 =
        ["ModifyDate", "CreateDate"] ∧
      "CreateDate" ∈ (find_date_meta lookupBoth dpSearchNone maxDate2023 "doc").1 :=
  ⟨by decide, by decide, by decide, by decide⟩

theorem collect_exifdates_consults_all (lookup : String → Option (List Char)) :
    ∀ tags : List String, (collect_exifdates lookup tags).1 = tags := by
  intro tags
  induction tags with
  | nil => rfl
  | cons t ts ih =>
    rw [collect_exifdates]
    cases hc : collect_exifdates lookup ts with
    | mk cons_tags vals =>
      cases lookup t <;> simp only [] <;> rw [← ih, hc]

/-- Claim C1 as amended: for every file category and every tag lookup, the
metadata resolver consults the lookup once for **every** tag name in the
category's list, values being collected up front; the short-circuit lives in
the parsing stage — the first collected value that `strptime` parses decides
the `(year, month)` result and no later value is parsed. -/
theorem find_date_meta_consults_all_short_circuits_parse
    (lookup : String → Option (List Char)) (dpS : DpSearch) (maxD : PyDate)
    (extension : String) :
    (find_date_meta lookup dpS maxD extension).1 = search_tags extension ∧
      (∀ (v : List Char) (vs : List (List Char)) (d : PyDate),
        strptime_first v = some d →
          parse_exifdates dpS maxD (v :: vs) = .ok (some (some d.year, some d.month))) := by
  constructor
  · unfold find_date_meta
    cases hc : collect_exifdates lookup (search_tags extension) with
    | mk tags vals =>
      have := collect_exifdates_consults_all lookup (search_tags extension)
      rw [hc] at this
      exact this
  · intro v vs d h
    rw [parse_exifdates, h]

/-- Witness for the amended C1: the default category consults both default
tags, and a parseable first value short-circuits the parsing stage. -/
theorem find_date_meta_consults_all_short_circuits_parse_witness :
    (find_date_meta lookupBoth dpSearchNone maxDate2023 "doc").1 =
        search_tags "doc" ∧
      strptime_first (("2017:01:09 12:23").toList) = some ⟨2017, 1, 9⟩ ∧
      parse_exifdates dpSearchNone maxDate2023
          [("2017:01:09 12:23").toList, ("2018:05:06").toList] =
        .ok (some (some 2017, some 1)) :=
  ⟨(find_date_meta_consults_all_short_circuits_parse lookupBoth dpSearchNone maxDate2023
      "doc").1,
   by decide,
   (find_date_meta_consults_all_short_circuits_parse lookupBoth dpSearchNone maxDate2023
      "doc").2 (("2017:01:09 12:23").toList) [("2018:05:06").toList] ⟨2017, 1, 9⟩
      (by decide)⟩
